import Mathlib

/-!
# Verification of the FHIR search query compiler and executor

A shallow embedding of the MongoDB search compiler/executor found in
`search/mongo_search.go`, together with theorems settling the stated
properties of its specification.

Modelling conventions:
* Go's `bson.M` (`map[string]interface{}`) is modelled as an association
  list `List (String × BVal)`; the compiler only ever builds maps with
  distinct keys, and list order stands in for Go's (unordered) map
  iteration order.
* Go's `[]bson.M` (slices of documents, the values stored under `$or`
  and `$and`) get their own constructor `BVal.docs`, mirroring the
  distinct Go runtime type that the source asserts with `.([]bson.M)`.
* `time.Time` values (the outputs of `RangeLowIncl`/`RangeHighExcl`) and
  numeric search values are modelled as `Int`.
* Code that raises via `panic(create...Error(...))` is modelled with
  `Except SearchError`; the panic unwinds the enclosing loops, which the
  `Except` monad mirrors.
-/

set_option autoImplicit false

namespace FhirSearch

/-- A BSON value as constructed by the search compiler.
`doc` is Go's `bson.M`; `docs` is Go's `[]bson.M` (the payload of
`$or`/`$and`); `regex` is `primitive.Regex{Pattern, Options}`. -/
inductive BVal where
  | str : String → BVal
  | num : Int → BVal
  | bool : Bool → BVal
  | null : BVal
  | regex : String → String → BVal
  | doc : List (String × BVal) → BVal
  | docs : List (List (String × BVal)) → BVal

/-- Go's `bson.M`: a string-keyed document. -/
abbrev BDoc := List (String × BVal)

namespace BDoc

/-- Map-read `m[k]`: the first binding of `k` (compiler-built documents
have distinct keys). -/
def lookup : BDoc → String → Option BVal
  | [], _ => none
  | (k', v) :: rest, k => if k' = k then some v else lookup rest k

/-- Map-membership test `_, ok := m[k]`. -/
def hasKey (d : BDoc) (k : String) : Bool :=
  (d.lookup k).isSome

/-- Map-write `m[k] = v`: replace the binding if present, else append. -/
def setKey : BDoc → String → BVal → BDoc
  | [], k, v => [(k, v)]
  | (k', v') :: rest, k, v =>
    if k' = k then (k, v) :: rest else (k', v') :: setKey rest k v

end BDoc

/-! ## Path normalizer (`convertSearchPathToMongoField` and friends)

The Go source uses two regular-expression passes:
* `convertBracketIndexesToDotIndexes` replaces each match of
  `\[(\d+)\]([^\.]+)` by `$2.$1` (leftmost, non-overlapping, greedy);
* `convertSearchPathToMongoField` then drops every occurrence of `[]`
  (`strings.Replace(s, "[]", "", -1)`).
Both are implemented below as direct scans over the character list. -/

/-- Attempt the regex `(\d+)\]([^\.]+)` at the start of `l` (the part of
`\[(\d+)\]([^\.]+)` after the opening bracket): maximal nonempty digit
run, a closing bracket, then a maximal nonempty run of non-dot
characters.  Returns `(digits, key, rest)`. -/
def tryIndexMatch (l : List Char) : Option (List Char × List Char × List Char) :=
  match l.drop (l.takeWhile (fun c => c.isDigit)).length with
  | [] => none
  | c :: r2 =>
    if (l.takeWhile (fun c => c.isDigit)).isEmpty then none
    else if c = ']' then
      if (r2.takeWhile (fun c => !(c == '.'))).isEmpty then none
      else some (l.takeWhile (fun c => c.isDigit),
                 r2.takeWhile (fun c => !(c == '.')),
                 r2.drop (r2.takeWhile (fun c => !(c == '.'))).length)
    else none

theorem tryIndexMatch_length {l ds key rest : List Char}
    (h : tryIndexMatch l = some (ds, key, rest)) : rest.length < l.length := by
  unfold tryIndexMatch at h
  cases hr : l.drop (l.takeWhile (fun c => c.isDigit)).length with
  | nil => rw [hr] at h; exact absurd h (by simp)
  | cons c r2 =>
    rw [hr] at h
    dsimp only at h
    by_cases hds : (l.takeWhile (fun c => c.isDigit)).isEmpty
    · rw [if_pos hds] at h; exact absurd h (by simp)
    · rw [if_neg hds] at h
      by_cases hc : c = ']'
      · rw [if_pos hc] at h
        by_cases hk : (r2.takeWhile (fun c => !(c == '.'))).isEmpty
        · rw [if_pos hk] at h; exact absurd h (by simp)
        · rw [if_neg hk] at h
          have hrest : rest = r2.drop (r2.takeWhile (fun c => !(c == '.'))).length := by
            have := Option.some.inj h
            exact (congrArg (fun t => t.2.2) this).symm
          have h1 : r2.length + 1 ≤ l.length := by
            have := congrArg List.length hr
            simp only [List.length_drop, List.length_cons] at this
            omega
          have h2 : rest.length ≤ r2.length := by
            rw [hrest]; simp
          omega
      · rw [if_neg hc] at h; exact absurd h (by simp)

/-- Fuel-indexed scanner for `convertBracketIndexesToDotIndexes`:
replace every (leftmost, non-overlapping) match of `\[(\d+)\]([^\.]+)`
by `$2.$1`.  The fuel only serves termination; with `fuel ≥ l.length`
(always the case below) it never runs out. -/
def convBIF : Nat → List Char → List Char
  | _, [] => []
  | 0, l => l
  | fuel + 1, c :: rest =>
    if c = '[' then
      match tryIndexMatch rest with
      | some (ds, key, rest') => key ++ '.' :: (ds ++ convBIF fuel rest')
      | none => c :: convBIF fuel rest
    else
      c :: convBIF fuel rest

theorem convBIF_congr : ∀ (f1 f2 : Nat) (l : List Char),
    l.length ≤ f1 → l.length ≤ f2 → convBIF f1 l = convBIF f2 l := by
  intro f1
  induction f1 with
  | zero =>
    intro f2 l h1 _
    have : l = [] := List.length_eq_zero.mp (Nat.le_zero.mp h1)
    subst this; cases f2 <;> rfl
  | succ f1 ih =>
    intro f2 l h1 h2
    cases l with
    | nil => cases f2 <;> rfl
    | cons c rest =>
      cases f2 with
      | zero => exact absurd h2 (by simp)
      | succ f2 =>
        simp only [convBIF]
        by_cases hc : c = '['
        · rw [if_pos hc, if_pos hc]
          cases hm : tryIndexMatch rest with
          | none =>
            dsimp only
            simp only [List.length_cons] at h1 h2
            rw [ih f2 rest (by omega) (by omega)]
          | some v =>
            obtain ⟨ds, key, rest'⟩ := v
            have hlt := tryIndexMatch_length hm
            dsimp only
            simp only [List.length_cons] at h1 h2
            rw [ih f2 rest' (by omega) (by omega)]
        · rw [if_neg hc, if_neg hc]
          simp only [List.length_cons] at h1 h2
          rw [ih f2 rest (by omega) (by omega)]

/-- `convertBracketIndexesToDotIndexes` on a character list. -/
def convBI (l : List Char) : List Char := convBIF l.length l

theorem convBI_nil : convBI [] = [] := rfl

theorem convBI_cons (c : Char) (rest : List Char) :
    convBI (c :: rest) =
      if c = '[' then
        match tryIndexMatch rest with
        | some (ds, key, rest') => key ++ '.' :: (ds ++ convBI rest')
        | none => c :: convBI rest
      else
        c :: convBI rest := by
  show convBIF (rest.length + 1) (c :: rest) = _
  simp only [convBIF]
  by_cases hc : c = '['
  · rw [if_pos hc, if_pos hc]
    cases hm : tryIndexMatch rest with
    | none => rfl
    | some v =>
      obtain ⟨ds, key, rest'⟩ := v
      have hlt := tryIndexMatch_length hm
      dsimp only
      rw [convBIF_congr rest.length rest'.length rest' (by omega) (le_refl _)]
      rfl
  · rw [if_neg hc, if_neg hc]; rfl

/-- `strings.Replace(s, "[]", "", -1)` on a character list. -/
def removeEmptyBrackets : List Char → List Char
  | '[' :: ']' :: rest => removeEmptyBrackets rest
  | c :: rest => c :: removeEmptyBrackets rest
  | [] => []

/-- Fixes just the indexers so `"[]element.[0]target.[]product.element"`
becomes `"[]element.target.0.[]product.element"`. -/
def convertBracketIndexesToDotIndexes (s : String) : String :=
  ⟨convBI s.toList⟩

/-- Fixes the array markers/indexers so `"[]element.[0]target.[]product.element"`
becomes `"element.target.0.product.element"`. -/
def convertSearchPathToMongoField (s : String) : String :=
  ⟨removeEmptyBrackets (convBI s.toList)⟩

example : convertSearchPathToMongoField "[0]entry.resource" = "entry.0.resource" := by decide
example : convertSearchPathToMongoField "[]element.[0]target.[]product.element"
    = "element.target.0.product.element" := by decide

/-! ## `buildBSON`'s array-split regex

`buildBSON` matches the indexed path against the Go regex
`(.*\[\][^\.]*)\.?([^\[\]]*)`: group 1 runs up to and including the last
`[]` marker plus the rest of that dot-segment, then an optional dot,
then group 2 greedily takes non-bracket characters.  `splitAux` finds
the prefix through the last `[]`. -/

def splitAux : List Char → Option (List Char × List Char)
  | '[' :: ']' :: rest =>
    some (match splitAux rest with
          | some (a, b) => ('[' :: ']' :: a, b)
          | none => (['[', ']'], rest))
  | c :: rest => (splitAux rest).map fun (a, b) => (c :: a, b)
  | [] => none

/-- `pathRegex.FindStringSubmatch`: `some (group1, group2)` when the
path contains a `[]` marker, `none` otherwise. -/
def splitAtLastArrayMarker (s : String) : Option (String × String) :=
  match splitAux s.toList with
  | none => none
  | some (pre, rest) =>
    let seg := rest.takeWhile (fun c => !(c == '.'))
    let rest1 := rest.drop seg.length
    let rest2 := match rest1 with
      | '.' :: t => t
      | t => t
    let right := rest2.takeWhile (fun c => !(c == '[') && !(c == ']'))
    some (⟨pre ++ seg⟩, ⟨right⟩)

example : splitAtLastArrayMarker "[]name.given" = some ("[]name", "given") := by decide
example : splitAtLastArrayMarker "[]a.b.c" = some ("[]a", "b.c") := by decide
example : splitAtLastArrayMarker "a.b" = none := by decide
example : splitAtLastArrayMarker "[]element.[]product.code" = some ("[]element.[]product", "code")
  := by decide

/-- `strings.Replace(s, "[]", "", -1)` on a `String`. -/
def removeEmptyBracketsStr (s : String) : String :=
  ⟨removeEmptyBrackets s.toList⟩

/-- `isQueryOperator`: the key starts with `'$'`. -/
def isQueryOperator (key : String) : Bool :=
  key.length > 0 && key.toList.headD ' ' == '$'

example : isQueryOperator "$or" = true := by decide
example : isQueryOperator "system" = false := by decide

/-! ## Configuration and case-insensitive matchers -/

/-- The searcher's configuration flags (the relevant fields of
`MongoSearcher`; the database handles are abstracted into the
environment of `SearchModel` below). -/
structure Config where
  countTotalResults : Bool
  enableCISearches : Bool
  tokenParametersCaseSensitive : Bool
  readonly : Bool

/-- `regexp.QuoteMeta`: escape every RE2 metacharacter with a
backslash. -/
def quoteMetaChar (c : Char) : List Char :=
  if c ∈ ['\\', '.', '+', '*', '?', '(', ')', '|', '[', ']', '\x7b', '\x7d', '^', '$']
  then ['\\', c] else [c]

def quoteMeta (s : String) : String :=
  ⟨s.toList.flatMap quoteMetaChar⟩

example : quoteMeta "http://a.b|c" = "http://a\\.b\\|c" := by decide

/-- Case-insensitive match: an anchored regex with option `i` when
`enableCISearches` is set, a plain string otherwise. -/
def ci (m : Config) (s : String) : BVal :=
  if m.enableCISearches then .regex ("^" ++ quoteMeta s ++ "$") "i" else .str s

/-- Case-insensitive match for token-type search parameters. -/
def ciToken (m : Config) (s : String) : BVal :=
  if !m.tokenParametersCaseSensitive && m.enableCISearches then
    .regex ("^" ++ quoteMeta s ++ "$") "i"
  else .str s

/-- Case-insensitive starts-with. -/
def cisw (m : Config) (s : String) : BVal :=
  if m.enableCISearches then .regex ("^" ++ quoteMeta s) "i" else .str s

/-! ## `buildBSON`

The shared wrapper that projects a path-agnostic predicate onto a
concrete field path.  `processQueryOperatorCriteria` has the Go
`processOrCriteria` inlined in its `$or` branch; `entriesLoop` is the
`for k, v := range bCriteria` loop (shared between the `$elemMatch`
branch, where `path` is the regex's right capture group, and the plain
branch, where `path` is the normalised field path). -/

theorem sizeOf_list_pos {α : Type} [SizeOf α] (l : List α) : 0 < sizeOf l := by
  cases l <;> simp_arith

mutual

def buildBSON (path : String) (criteria : BVal) : BDoc :=
  match criteria with
  | .doc bCriteria =>
    match splitAtLastArrayMarker (convertBracketIndexesToDotIndexes path) with
    | some (left0, right) =>
      if bCriteria.length > 1 then
        -- An array in the path and a composite criteria: use an $elemMatch
        let left := removeEmptyBracketsStr left0
        let resultCriteria :=
          if right.length > 0 then entriesLoop right bCriteria [] else bCriteria
        [(left, .doc [("$elemMatch", .doc resultCriteria)])]
      else
        entriesLoop (convertSearchPathToMongoField path) bCriteria []
    | none =>
      -- Path has no array or criteria is singular
      entriesLoop (convertSearchPathToMongoField path) bCriteria []
  | c =>
    -- Criteria is singular, so we don't care about arrays
    [(convertSearchPathToMongoField path, c)]
termination_by sizeOf criteria
decreasing_by all_goals (simp_wf; try omega)

/-- The `for k, v := range bCriteria` loop of `buildBSON` (shared by the
`$elemMatch` branch, with `path` the right capture group of the array
regex, and the plain branch, with `path` the normalised field path). -/
def entriesLoop (path : String) (entries : List (String × BVal)) (result : BDoc) : BDoc :=
  match entries with
  | [] => result
  | (k, v) :: rest =>
    entriesLoop path rest
      (if isQueryOperator k then processQueryOperatorCriteria path k v result
       else BDoc.setKey result (path ++ "." ++ k) v)
termination_by sizeOf entries
decreasing_by all_goals (simp_wf; try omega)

def processQueryOperatorCriteria (path k : String) (v : BVal) (result : BDoc) : BDoc :=
  if k = "$or" then
    -- processOrCriteria: rebuild each branch of the disjunction under the path
    match v with
    | .docs ors => BDoc.setKey result "$or" (.docs (mapBuildBSON path ors))
    | _ => result  -- Go raises an internal error here; the compiler only stores []bson.M under $or
  else
    match BDoc.lookup result path with
    | some (.doc c) => BDoc.setKey result path (.doc (BDoc.setKey c k v))
    | some _ => result  -- Go's type assertion would panic; unreachable for compiler output
    | none => BDoc.setKey result path (.doc [(k, v)])
termination_by sizeOf v
decreasing_by all_goals (simp_wf; try omega)

def mapBuildBSON (path : String) : List (List (String × BVal)) → List (List (String × BVal))
  | [] => []
  | b :: rest => buildBSON path (.doc b) :: mapBuildBSON path rest
termination_by l => sizeOf l
decreasing_by
  all_goals (simp_wf; try omega)
  all_goals (have hpos := sizeOf_list_pos rest; omega)

end

/-- For a non-document criteria value, `buildBSON` binds the normalised
field path to the value itself. -/
theorem buildBSON_of_scalar (path : String) (c : BVal) (h : ∀ d, c ≠ .doc d) :
    buildBSON path c = [(convertSearchPathToMongoField path, c)] := by
  cases c with
  | doc d => exact absurd rfl (h d)
  | str s => (rw [buildBSON]; simp)
  | num n => (rw [buildBSON]; simp)
  | bool b => (rw [buildBSON]; simp)
  | null => (rw [buildBSON]; simp)
  | regex p o => (rw [buildBSON]; simp)
  | docs l => (rw [buildBSON]; simp)

/-! ## Search-parameter data model

The `SearchParam` variants and `SearchParamInfo` live in the search
package's `query.go` (not part of the provided sources); the fields
below are the ones `mongo_search.go` reads.  Go names that the Lean
token rules disallow are renamed: `Prefix` becomes `pfx`. -/

/-- One search path of a parameter: `{ Path, Type }`. -/
structure SearchParamPath where
  path : String
  type : String
deriving DecidableEq

/-- A prefix on ordered parameters (`EQ`, `NE`, ... constants of the
search package). -/
inductive Pfx where
  | eq | ne | gt | lt | ge | le | sa | eb
deriving DecidableEq

/-- The slice of `SearchParamInfo` that the compiler reads: the
parameter's name, its paths, its prefix, its modifier and its target
resource types. -/
structure SearchParamInfo where
  name : String
  paths : List SearchParamPath
  pfx : Pfx
  modifier : String
  targets : List String
deriving DecidableEq

instance : Inhabited SearchParamInfo :=
  ⟨⟨"", [], .eq, "", []⟩⟩

/-! ## Error taxonomy (`search.Error` and its constructors) -/

/-- `models.OperationOutcome` reduced to the fields the constructors
set: severity, issue-type code, message code and display text. -/
structure OperationOutcomeModel where
  severity : String
  issueType : String
  msgCode : String
  display : String
deriving DecidableEq

/-- `search.Error`: an HTTP status plus an operation outcome. -/
structure SearchError where
  httpStatus : Nat
  outcome : OperationOutcomeModel
deriving DecidableEq

/-- `http.StatusNotImplemented` with a `not-supported` outcome. -/
def createUnsupportedSearchError (code display : String) : SearchError :=
  { httpStatus := 501, outcome := ⟨"error", "not-supported", code, display⟩ }

/-- `http.StatusBadRequest` with a `processing` outcome. -/
def createInvalidSearchError (code display : String) : SearchError :=
  { httpStatus := 400, outcome := ⟨"error", "processing", code, display⟩ }

/-- `http.StatusInternalServerError` with a fatal `exception` outcome. -/
def createInternalServerError (code display : String) : SearchError :=
  { httpStatus := 500, outcome := ⟨"fatal", "exception", code, display⟩ }

/-! ## `orPaths`

When multiple paths are present, they are represented as an OR; a
result that is itself a single-key `$or` document contributes its
branches directly ("bring the components up to the top-level $or").
`orPaths` is the pure version (for builders that cannot fail);
`orPathsE` is the same loop with the Go panic modelled as `Except`
propagation. -/

/-- The `results` accumulation loop of `orPaths`. -/
def collectOrResults (objFunc : SearchParamPath → BDoc) :
    List SearchParamPath → List BDoc
  | [] => []
  | p :: rest =>
    match objFunc p with
    | [("$or", .docs l)] => l ++ collectOrResults objFunc rest
    | r => r :: collectOrResults objFunc rest

def orPaths (objFunc : SearchParamPath → BDoc) (paths : List SearchParamPath) : BDoc :=
  match collectOrResults objFunc paths with
  | [r] => r
  | rs => [("$or", .docs rs)]

/-- `collectOrResults` with error propagation (a Go panic in `objFunc`
unwinds the whole loop). -/
def collectOrResultsE (objFunc : SearchParamPath → Except SearchError BDoc) :
    List SearchParamPath → Except SearchError (List BDoc)
  | [] => .ok []
  | p :: rest => do
    let r ← objFunc p
    let tail ← collectOrResultsE objFunc rest
    match r with
    | [("$or", .docs l)] => return l ++ tail
    | r => return r :: tail

def orPathsE (objFunc : SearchParamPath → Except SearchError BDoc)
    (paths : List SearchParamPath) : Except SearchError BDoc := do
  match ← collectOrResultsE objFunc paths with
  | [r] => return r
  | rs => return [("$or", .docs rs)]

/-! ## `merge` (the query assembler's conflict-free union) -/

/-- The `.([]bson.M)` type assertion on a `$and`/`$or` payload.  For any
other value the Go code would panic; the compiler only stores
`[]bson.M` there. -/
def getAndBranches (v : BVal) : List BDoc :=
  match v with
  | .docs l => l
  | _ => []

/-- One iteration of `merge`'s `for k, v := range from` loop, carrying
the partially merged document and the pending `$and` conjunction
list. -/
def mergeStep (acc : BDoc × List BDoc) (kv : String × BVal) : BDoc × List BDoc :=
  if kv.1 = "$and" then (acc.1, acc.2 ++ getAndBranches kv.2)
  else if BDoc.hasKey acc.1 kv.1 then (acc.1, acc.2 ++ [[(kv.1, kv.2)]])
  else (acc.1 ++ [(kv.1, kv.2)], acc.2)

/-- The initial pending conjunction list of `merge`: the branches of
`into`'s existing `$and`, if any. -/
def mergeAnd0 (into : BDoc) : List BDoc :=
  match BDoc.lookup into "$and" with
  | some v => getAndBranches v
  | none => []

/-- `merge(into, from)`: merge `from`'s bindings into `into`, promoting
key conflicts (and incoming `$and` branches) to a top-level `$and`. -/
def merge (into from_ : BDoc) : BDoc :=
  let res := from_.foldl mergeStep (into, mergeAnd0 into)
  if res.2.isEmpty then res.1 else BDoc.setKey res.1 "$and" (.docs res.2)

/-! ## Typed parameters

Each Go parameter struct embeds a `SearchParamInfo`; the parsed values
are reduced to the accessors the compiler reads (`RangeLowIncl`,
`RangeHighExcl`, `Value`, modelled as `Int`). -/

/-- The parsed date of a `DateParam`, reduced to its two range
accessors. -/
structure FHIRDateTimeRange where
  rangeLowIncl : Int
  rangeHighExcl : Int
deriving DecidableEq

structure DateParam where
  info : SearchParamInfo
  date : FHIRDateTimeRange
deriving DecidableEq

/-- The parsed number of a `NumberParam`/`QuantityParam`, reduced to its
range accessors and exact value. -/
structure NumberValue where
  rangeLowIncl : Int
  rangeHighExcl : Int
  value : Int
deriving DecidableEq

structure NumberParam where
  info : SearchParamInfo
  number : NumberValue
deriving DecidableEq

structure QuantityParam where
  info : SearchParamInfo
  number : NumberValue
  system : String
  code : String
deriving DecidableEq

structure StringParam where
  info : SearchParamInfo
  str : String
deriving DecidableEq

structure TokenParam where
  info : SearchParamInfo
  system : String
  code : String
  anySystem : Bool
deriving DecidableEq

structure URIParam where
  info : SearchParamInfo
  uri : String
deriving DecidableEq

structure CompositeParam where
  info : SearchParamInfo
deriving DecidableEq

/-- The `SearchParam` variants handled by `createParamObjects`.
`ReferenceParam` and `OrParam` (whose compilation is recursive and
partly routed to the pipeline assembler) are not needed by the claims
settled here and are left out of this sum. -/
inductive SearchParam where
  | composite (c : CompositeParam)
  | date (d : DateParam)
  | number (n : NumberParam)
  | quantity (q : QuantityParam)
  | str (s : StringParam)
  | token (t : TokenParam)
  | uri (u : URIParam)
deriving DecidableEq

def SearchParam.getInfo : SearchParam → SearchParamInfo
  | .composite c => c.info
  | .date d => d.info
  | .number n => n.info
  | .quantity q => q.info
  | .str s => s.info
  | .token t => t.info
  | .uri u => u.info

/-! ## Date selectors -/

/-- The prefix table for `date`/`dateTime` (and `Timing` event) targets
over the stored `__from`/`__to` bounds.  The Go switch has no `NE` case
and falls through to an `UnsupportedSearch` panic. -/
def dateSelector (d : DateParam) : Except SearchError BDoc :=
  match d.info.pfx with
  | .eq => .ok [("__from", .doc [("$gte", .num d.date.rangeLowIncl)]),
                ("__to", .doc [("$lte", .num d.date.rangeHighExcl)])]
  | .gt => .ok [("__to", .doc [("$gt", .num d.date.rangeHighExcl)])]
  | .lt => .ok [("__from", .doc [("$lt", .num d.date.rangeLowIncl)])]
  | .ge => .ok [("$or", .docs
      [[("__to", .doc [("$gte", .num d.date.rangeHighExcl)])],
       [("__from", .doc [("$gte", .num d.date.rangeLowIncl)])]])]
  | .le => .ok [("$or", .docs
      [[("__from", .doc [("$lte", .num d.date.rangeLowIncl)])],
       [("__to", .doc [("$lte", .num d.date.rangeHighExcl)])]])]
  | .sa => .ok [("__from", .doc [("$gt", .num d.date.rangeHighExcl)])]
  | .eb => .ok [("__to", .doc [("$lt", .num d.date.rangeLowIncl)])]
  | .ne => .error (createUnsupportedSearchError "MSG_PARAM_INVALID"
      ("Parameter \"" ++ d.info.name ++ "\" content is invalid"))

/-- The prefix table for `instant` targets (a single stored
timestamp). -/
def instantSelector (p : DateParam) : Except SearchError BDoc :=
  match p.info.pfx with
  | .eq => .ok [("$gte", .num p.date.rangeLowIncl), ("$lt", .num p.date.rangeHighExcl)]
  | .gt => .ok [("$gt", .num p.date.rangeLowIncl)]
  | .ge => .ok [("$gte", .num p.date.rangeLowIncl)]
  | .sa => .ok [("$gt", .num p.date.rangeHighExcl)]
  | .lt => .ok [("$lt", .num p.date.rangeLowIncl)]
  | .eb => .ok [("$lt", .num p.date.rangeLowIncl)]
  | .le => .ok [("$lt", .num p.date.rangeHighExcl)]
  | .ne => .error (createUnsupportedSearchError "MSG_PARAM_INVALID"
      ("Parameter \"" ++ p.info.name ++ "\" content is invalid"))

/-- The prefix table for `Period` targets over `start.__from` /
`end.__to` (reproducing the source's shapes verbatim, including the
open-ended-period branches). -/
def periodSelector (d : DateParam) : Except SearchError BDoc :=
  match d.info.pfx with
  | .eq => .ok [("start.__from", .doc [("$gte", .num d.date.rangeLowIncl)]),
                ("end.__to", .doc [("$lte", .num d.date.rangeHighExcl)])]
  | .gt => .ok [("$or", .docs
      [[("end.__to", .doc [("$gt", .num d.date.rangeHighExcl)])],
       [("$ne", .null), ("end", .null)]])]
  | .lt => .ok [("$or", .docs
      [[("start.__from", .doc [("$lt", .num d.date.rangeLowIncl)])],
       [("$ne", .null), ("start", .null)]])]
  | .ge => .ok [("$or", .docs
      [[("end.__to", .doc [("$gte", .num d.date.rangeHighExcl)])],
       [("start.__from", .doc [("$gte", .num d.date.rangeLowIncl)])],
       [("$ne", .null), ("end", .null)]])]
  | .le => .ok [("$or", .docs
      [[("start.__from", .doc [("$lte", .num d.date.rangeLowIncl)])],
       [("end.__to", .doc [("$lte", .num d.date.rangeHighExcl)])],
       [("$ne", .null), ("start", .null)]])]
  | .sa => .ok [("start.__from", .doc [("$gt", .num d.date.rangeHighExcl)])]
  | .eb => .ok [("end.__to", .doc [("$lt", .num d.date.rangeLowIncl)])]
  | .ne => .error (createUnsupportedSearchError "MSG_PARAM_INVALID"
      ("Parameter \"" ++ d.info.name ++ "\" content is invalid"))

/-- The `single` closure of `createDateQueryObject`: dispatch on the
target type; a `Timing` target applies the date selector to the path
extended with `.event`. -/
def dateSingle (d : DateParam) (p : SearchParamPath) : Except SearchError BDoc :=
  match p.type with
  | "date" => (dateSelector d).map (fun c => buildBSON p.path (.doc c))
  | "dateTime" => (dateSelector d).map (fun c => buildBSON p.path (.doc c))
  | "instant" => (instantSelector d).map (fun c => buildBSON p.path (.doc c))
  | "Period" => (periodSelector d).map (fun c => buildBSON p.path (.doc c))
  | "Timing" => (dateSelector d).map (fun c => buildBSON (p.path ++ ".event") (.doc c))
  | _ => .ok []

def createDateQueryObject (d : DateParam) : Except SearchError BDoc :=
  orPathsE (dateSingle d) d.info.paths

/-! ## Number, quantity, string, token, URI and composite builders -/

/-- The `single` closure of `createNumberQueryObject`. -/
def numberSingle (n : NumberParam) (p : SearchParamPath) : Except SearchError BDoc :=
  if p.type = "decimal" then
    .error (createUnsupportedSearchError "MSG_PARAM_INVALID"
      ("Parameter \"" ++ n.info.name ++ "\" (decimal type) is not yet supported"))
  else
    match n.info.pfx with
    | .eq => .ok (buildBSON p.path (.doc
        [("$gte", .num n.number.rangeLowIncl), ("$lt", .num n.number.rangeHighExcl)]))
    | .ne => .ok (buildBSON p.path (.doc [("$or", .docs
        [[("$lt", .num n.number.rangeLowIncl)],
         [("$gte", .num n.number.rangeHighExcl)]])]))
    | .gt => .ok (buildBSON p.path (.doc [("$gt", .num n.number.value)]))
    | .lt => .ok (buildBSON p.path (.doc [("$lt", .num n.number.value)]))
    | .ge => .ok (buildBSON p.path (.doc [("$gte", .num n.number.rangeLowIncl)]))
    | .le => .ok (buildBSON p.path (.doc [("$lte", .num n.number.rangeHighExcl)]))
    | _ =>
      -- SA, EB are not supported for Number queries
      .error (createUnsupportedSearchError "MSG_PARAM_INVALID"
        ("Parameter \"" ++ n.info.name ++ "\" content is invalid"))

def createNumberQueryObject (n : NumberParam) : Except SearchError BDoc :=
  orPathsE (numberSingle n) n.info.paths

/-- The prefix table of `createQuantityQueryObject` over
`value.__from`/`value.__to` (NE, SA, EB are not supported for Quantity
queries). -/
def quantityCriteria (q : QuantityParam) : Except SearchError BDoc :=
  match q.info.pfx with
  | .eq => .ok [("value.__from", .doc [("$gte", .num q.number.rangeLowIncl)]),
                ("value.__to", .doc [("$lte", .num q.number.rangeHighExcl)])]
  | .lt => .ok [("value.__from", .doc [("$lt", .num q.number.value)])]
  | .gt => .ok [("value.__to", .doc [("$gt", .num q.number.value)])]
  | .ge => .ok [("$or", .docs
      [[("value.__to", .doc [("$gte", .num q.number.rangeHighExcl)])],
       [("value.__from", .doc [("$gte", .num q.number.rangeLowIncl)])]])]
  | .le => .ok [("$or", .docs
      [[("value.__from", .doc [("$lte", .num q.number.rangeLowIncl)])],
       [("value.__to", .doc [("$lte", .num q.number.rangeHighExcl)])]])]
  | _ => .error (createUnsupportedSearchError "MSG_PARAM_INVALID"
      ("Parameter \"" ++ q.info.name ++ "\" content is invalid"))

/-- The `single` closure of `createQuantityQueryObject`: prefix table
over `value.__from`/`value.__to`, then the system/code handling.  A
missing system is (currently) unsupported. -/
def quantitySingle (m : Config) (q : QuantityParam) (p : SearchParamPath) :
    Except SearchError BDoc :=
  match quantityCriteria q with
  | .error e => .error e
  | .ok criteria =>
    if q.system = "" then
      .error (createUnsupportedSearchError "MSG_PARAM_INVALID"
        ("Parameter \"" ++ q.info.name ++ "\": search by quantity with a code system not yet supported"))
    else
      .ok (buildBSON p.path (.doc
        (BDoc.setKey (BDoc.setKey criteria "code" (ciToken m q.code)) "system" (ciToken m q.system))))

def createQuantityQueryObject (m : Config) (q : QuantityParam) : Except SearchError BDoc :=
  orPathsE (quantitySingle m q) q.info.paths

/-- The `single` closure of `createStringQueryObject`: `HumanName` and
`Address` targets expand into disjunctions of case-insensitive
starts-with matches over their subfields; `_id` is bound exactly; any
other target is bound with the (anchored, exact) case-insensitive
match `ci`. -/
def stringSingle (m : Config) (s : StringParam) (p : SearchParamPath) : BDoc :=
  match p.type with
  | "HumanName" =>
    buildBSON p.path (.doc [("$or", .docs
      [[("text", cisw m s.str)],
       [("family", cisw m s.str)],
       [("given", cisw m s.str)]])])
  | "Address" =>
    buildBSON p.path (.doc [("$or", .docs
      [[("text", cisw m s.str)],
       [("line", cisw m s.str)],
       [("city", cisw m s.str)],
       [("state", cisw m s.str)],
       [("postalCode", cisw m s.str)],
       [("country", cisw m s.str)]])])
  | _ =>
    if s.info.name = "_id" then buildBSON p.path (.str s.str)
    else buildBSON p.path (ci m s.str)

def createStringQueryObject (m : Config) (s : StringParam) : BDoc :=
  orPaths (stringSingle m s) s.info.paths

/-- `if o != nil { criteria[k] = o }`. -/
def addOpt (d : BDoc) (k : String) (o : Option BVal) : BDoc :=
  match o with
  | some v => BDoc.setKey d k v
  | none => d

/-- The system/code criteria of `createTokenQueryObject`, as determined
by the `(system, code, anySystem)` tuple.  Returns
`(systemCriteria, codeCriteria)`; `none` is Go's `nil`. -/
def tokenSystemCodeCriteria (m : Config) (t : TokenParam) : Option BVal × Option BVal :=
  if t.code = "" then
    -- [parameter]=[system]|
    (some (ciToken m t.system), none)
  else if t.system = "" then
    if t.anySystem then
      -- [parameter]=[code]
      (none, some (ciToken m t.code))
    else
      -- [parameter]=|[code]
      (some (.doc [("$exists", .bool false)]), some (ciToken m t.code))
  else
    -- [parameter]=[system]|[code]
    (some (ciToken m t.system), some (ciToken m t.code))

/-- The `single` closure of `createTokenQueryObject`: dispatch on the
target type. -/
def tokenSingle (m : Config) (t : TokenParam) (p : SearchParamPath) :
    Except SearchError BDoc :=
  let sc := tokenSystemCodeCriteria m t
  match p.type with
  | "Coding" =>
    .ok (buildBSON p.path (.doc (addOpt (addOpt [] "system" sc.1) "code" sc.2)))
  | "CodeableConcept" =>
    match sc.1, sc.2 with
    | some s, some c =>
      .ok (buildBSON p.path (.doc
        [("coding", .doc [("$elemMatch", .doc [("system", s), ("code", c)])])]))
    | _, _ =>
      .ok (buildBSON p.path (.doc (addOpt (addOpt [] "coding.system" sc.1) "coding.code" sc.2)))
  | "Identifier" =>
    .ok (buildBSON p.path (.doc (addOpt (addOpt [] "system" sc.1) "value" sc.2)))
  | "ContactPoint" =>
    let criteria := [("value", ci m t.code)]
    .ok (buildBSON p.path (.doc
      (if t.anySystem then criteria else BDoc.setKey criteria "use" (ciToken m t.system))))
  | "boolean" =>
    match t.code with
    | "true" => .ok (buildBSON p.path (.bool true))
    | "false" => .ok (buildBSON p.path (.bool false))
    | _ => .error (createInvalidSearchError "MSG_PARAM_INVALID"
        ("Parameter \"" ++ t.info.name ++ "\" content is invalid"))
  | "string" => .ok (buildBSON p.path (ci m t.code))
  | "code" => .ok (buildBSON p.path (ciToken m t.code))
  | "id" =>
    -- IDs do not need the case-insensitive match.
    .ok (buildBSON p.path (.str t.code))
  | _ => .ok (buildBSON p.path (.doc []))

def createTokenQueryObject (m : Config) (t : TokenParam) : Except SearchError BDoc :=
  orPathsE (tokenSingle m t) t.info.paths

def createURIQueryObject (u : URIParam) : BDoc :=
  orPaths (fun p => buildBSON p.path (.str u.uri)) u.info.paths

/-- Composite parameters are not implemented. -/
def createCompositeQueryObject (c : CompositeParam) : Except SearchError BDoc :=
  .error (createUnsupportedSearchError "MSG_PARAM_UNKNOWN"
    ("Parameter \"" ++ c.info.name ++ "\" not understood"))

/-- `panicOnUnsupportedFeatures`: only `EQ` prefixes are supported
outside date/number/quantity parameters, and no modifiers outside
reference parameters (reference parameters are not part of the modelled
sum, so a nonempty modifier always signals unsupported here). -/
def panicOnUnsupportedFeatures (p : SearchParam) : Except SearchError Unit := do
  let isOrdered := match p with
    | .date _ => true
    | .number _ => true
    | .quantity _ => true
    | _ => false
  if p.getInfo.pfx ≠ .eq ∧ isOrdered = false then
    throw (createUnsupportedSearchError "MSG_PARAM_INVALID"
      ("Parameter \"" ++ p.getInfo.name ++ "\" content is invalid"))
  if p.getInfo.modifier ≠ "" then
    throw (createUnsupportedSearchError "MSG_PARAM_MODIFIER_INVALID"
      ("Parameter \"" ++ p.getInfo.name ++ "\" modifier is invalid"))

/-- The dispatch of `createParamObjects` for one parameter. -/
def createParamObject (m : Config) (p : SearchParam) : Except SearchError BDoc := do
  panicOnUnsupportedFeatures p
  match p with
  | .composite c => createCompositeQueryObject c
  | .date d => createDateQueryObject d
  | .number n => createNumberQueryObject n
  | .quantity q => createQuantityQueryObject m q
  | .str s => .ok (createStringQueryObject m s)
  | .token t => createTokenQueryObject m t
  | .uri u => .ok (createURIQueryObject u)

def createParamObjects (m : Config) (params : List SearchParam) :
    Except SearchError (List BDoc) :=
  params.mapM (createParamObject m)

/-- `createQueryObjectFromParams`: merge the per-parameter predicate
documents into one conjunctive document. -/
def createQueryObjectFromParams (m : Config) (params : List SearchParam) :
    Except SearchError BDoc :=
  (createParamObjects m params).map (fun objs => objs.foldl merge [])

/-! ## Evaluation semantics for predicate documents

MongoDB's matching of a query document against a stored document is
external to the compiler; it is modelled here parametrically: a
document is the conjunction of its entries, a `$or` (resp. `$and`)
entry is the disjunction (resp. conjunction) of its branches, and every
other entry `k: v` is judged by an abstract atomic semantics
`atom k v`, standing for the driver's field-condition matching on a
stored document of type `δ`. -/

section Eval

variable {δ : Type} (atom : String → BVal → δ → Bool)

mutual

def evalDoc : BDoc → δ → Bool
  | [], _ => true
  | (k, v) :: rest, d => evalEntry k v d && evalDoc rest d
termination_by q => sizeOf q
decreasing_by all_goals (simp_wf; try omega)

def evalEntry (k : String) (v : BVal) (d : δ) : Bool :=
  if k = "$or" then
    match v with
    | .docs l => evalOrList l d
    | _ => false
  else if k = "$and" then
    match v with
    | .docs l => evalAndList l d
    | _ => false
  else atom k v d
termination_by sizeOf v
decreasing_by all_goals (simp_wf; try omega)

def evalOrList : List BDoc → δ → Bool
  | [], _ => false
  | q :: rest, d => evalDoc q d || evalOrList rest d
termination_by l => sizeOf l
decreasing_by all_goals (simp_wf; try omega)

def evalAndList : List BDoc → δ → Bool
  | [], _ => true
  | q :: rest, d => evalDoc q d && evalAndList rest d
termination_by l => sizeOf l
decreasing_by all_goals (simp_wf; try omega)

end

end Eval

/-! ## The executor (`MongoSearcher.Search`, `find`, `aggregate`)

The database is abstracted into an environment `MongoEnv` recording the
outcome of each driver operation the executor may issue; `SearchModel`
is then a pure function of the configuration, the environment and the
query, returning everything externally observable about a `Search`
call.  `md5hex` abstracts Go's `crypto/md5` plus `%x` formatting (an
external library the executor applies to `resource + "?" + rawQuery`).
Cursor decoding (`models2.NewResourceFromBSON`) is assumed to succeed;
its failure path only wraps the decode error. -/

/-- The parts of a parsed `Query` that the executor inspects.
`rawQuery` is `Query.Query` (the original raw query string); `summary`
is `QueryOptions.Summary`; `usesPipeline` reflects
`BSONQuery.usesPipeline()` after compilation; `pipelineLen` is the
length of the compiled pipeline in aggregate mode. -/
structure SearchQuery where
  resource : String
  rawQuery : String
  summary : String
  usesPipeline : Bool
  pipelineLen : Nat

/-- The environment of one `Search` call: `α` is the decoded-resource
type. -/
structure MongoEnv (α : Type) where
  /-- `crypto/md5` + `fmt.Sprintf("%x", ...)` (external stdlib). -/
  md5hex : String → String
  /-- `FindOne` on the `countcache` collection: `some count` on a hit,
  `none` when the lookup errs (e.g. no document). -/
  countcacheFind : String → Option Nat
  /-- Result of `CountDocuments` (used by `find`, and by `aggregate`
  when the pipeline has exactly one stage). -/
  countDocuments : Nat
  /-- Result of the `$group`-sum count pipeline (aggregate mode, longer
  pipelines); `none` models an empty cursor, leaving the total 0. -/
  aggGroupTotal : Option Nat
  /-- The documents decoded off the search cursor. -/
  dbDocs : List α
  /-- Whether `InsertOne` into `countcache` fails (the executor ignores
  this). -/
  countcacheInsertFails : Bool
  /-- Error from the count operation, if any. -/
  countError : Option String
  /-- Error from the find/aggregate operation, if any. -/
  findError : Option String

/-- Everything observable about one `Search` call: the returned triple
plus the cache insertion performed (if any) and whether a count query
was issued. -/
structure SearchOutcome (α : Type) where
  resources : List α
  total : Nat
  error : Option String
  cacheInsert : Option (String × Nat)
  countQueryRun : Bool
deriving DecidableEq

/-- `MongoSearcher.find`: count first (when counting is needed or the
search is `_summary=count`), short-circuit on `_summary=count`, then
run the find.  Returns `(cursor?, computedTotal)`. -/
def findModel {α : Type} (env : MongoEnv α) (q : SearchQuery) (doCount : Bool) :
    Except String (Option (List α) × Nat) := do
  let needCount := doCount || q.summary == "count"
  let total ← if needCount then
      match env.countError with
      | some e => throw ("search count operation failed: " ++ e)
      | none => pure env.countDocuments
    else pure 0
  if q.summary == "count" then
    -- Just return the count and don't do the search.
    return (none, total)
  else
    match env.findError with
    | some e => throw ("search find operation failed: " ++ e)
    | none => return (some env.dbDocs, total)

/-- `MongoSearcher.aggregate`: like `find`, but a single-stage pipeline
(the bare `$match` of an include/revinclude query) falls back to
`CountDocuments` on the match expression, and longer pipelines count
through a `$group` stage (an empty count cursor leaves the total 0). -/
def aggregateModel {α : Type} (env : MongoEnv α) (q : SearchQuery) (doCount : Bool) :
    Except String (Option (List α) × Nat) := do
  let needCount := doCount || q.summary == "count"
  let total ← if needCount then
      if q.pipelineLen == 1 then
        match env.countError with
        | some e => throw e
        | none => pure env.countDocuments
      else
        match env.countError with
        | some e => throw ("aggregate count failed: " ++ e)
        | none => pure ((env.aggGroupTotal).getD 0)
    else pure 0
  if q.summary == "count" then
    -- Just return the count and don't do the search.
    return (none, total)
  else
    match env.findError with
    | some e => throw ("aggregate operation failed: " ++ e)
    | none => return (some env.dbDocs, total)

/-- The tail of `Search` after the dispatch to find/aggregate: check
the query errors, short-circuit `_summary=count` before collecting,
collect the cursor, insert a fresh total into the count cache
(read-only, counting enabled, cache miss), and pick the returned
total. -/
def searchFinish {α : Type} (m : Config) (q : SearchQuery) (queryHash : String)
    (doCount : Bool) (total0 : Nat)
    (run : Except String (Option (List α) × Nat)) : SearchOutcome α :=
  let needCount := doCount || q.summary == "count"
  match run with
  | .error e =>
    { resources := [], total := 0, error := some ("Search error: " ++ e),
      cacheInsert := none, countQueryRun := needCount }
  | .ok (cursor, computedTotal) =>
    if q.summary == "count" then
      -- results should be an empty slice
      { resources := [], total := computedTotal, error := none,
        cacheInsert := none, countQueryRun := needCount }
    else
      let resources := cursor.getD []
      -- If the count wasn't already in cache, add it to cache
      -- (best-effort: failure of the insert is not collected).
      let cacheInsert := if m.readonly && m.countTotalResults && doCount
        then some (queryHash, computedTotal) else none
      { resources := resources,
        total := if doCount then computedTotal else total0,
        error := none, cacheInsert := cacheInsert, countQueryRun := needCount }

/-- `MongoSearcher.Search`: consult the count cache (read-only servers
with counting enabled), short-circuit a cached zero, dispatch to find
or aggregate, then finish via `searchFinish`, ignoring count-cache
insertion errors. -/
def SearchModel {α : Type} (m : Config) (env : MongoEnv α) (q : SearchQuery) :
    SearchOutcome α :=
  -- Check for a cached count; on a hit adopt it and skip the count.
  let queryHash := env.md5hex (q.resource ++ "?" ++ q.rawQuery)
  let cacheHit := if m.readonly && m.countTotalResults
    then env.countcacheFind queryHash else none
  let doCount0 := cacheHit.isNone
  let total0 := cacheHit.getD 0
  -- There's no point running the query if it will return 0 results.
  if m.readonly && !doCount0 && total0 == 0 then
    { resources := [], total := 0, error := none, cacheInsert := none,
      countQueryRun := false }
  else
    -- Don't count at all if countTotalResults is disabled.
    let doCount := if !m.countTotalResults then false else doCount0
    let run := if q.usesPipeline then aggregateModel env q doCount
               else findModel env q doCount
    searchFinish m q queryHash doCount total0 run

/-! ## Pipeline prefixing (`prependLookupKeyToSearchPaths`)

The pipeline assembler rewrites the search paths of the sub-parameters
of a chained/reverse-chained reference so they test the `$lookup`
results.  This is the compiler's only mutation site: each
`SearchParamInfo` is cloned before its paths are rewritten, and
`setInfo` repoints the parameter at the clone.  To express the absence
of mutation, Go pointers to `SearchParamInfo` values (the parameters'
embedded infos, including those shared with the parameter dictionary)
are modelled as indices into an explicit heap; writes go through
`List.set`, so writing in place instead of cloning would be visible in
the heap. -/

/-- The heap of `SearchParamInfo` values; the dictionary's entries are
the cells that exist before compilation. -/
abbrev InfoHeap := List SearchParamInfo

/-- A matchable parameter as seen by `prependLookupKeyToSearchPaths`:
either a plain parameter holding (a reference to) its info, or an
`OrParam` with its own info and its items' infos. -/
inductive MatchParam where
  | simple (infoRef : Nat)
  | orParam (infoRef : Nat) (items : List Nat)
deriving DecidableEq

/-- `duplicatePaths`: duplicate the paths in the `SearchParamInfo`
`n` times; `[a, b]` with `n = 3` gives `[a, a, a, b, b, b]`
(`newPaths[i*n+j] = paths[i]`). -/
def duplicatePaths (info : SearchParamInfo) (n : Nat) : SearchParamInfo :=
  { info with paths := (info.paths.map (List.replicate n)).flatten }

/-- The path-rewriting loop: prepend `"_lookup" + itoa(i % numReferencePaths) + "."`
to the i-th search path. -/
def prependPaths (paths : List SearchParamPath) (numReferencePaths : Nat) :
    List SearchParamPath :=
  paths.enum.map (fun ip =>
    { ip.2 with path := "_lookup" ++ toString (ip.1 % numReferencePaths) ++ "." ++ ip.2.path })

/-- The whole rewrite applied to one cloned info: duplicate the paths
when there are multiple reference paths, then prefix each path with its
`_lookup` key. -/
def rewriteInfo (info : SearchParamInfo) (numReferencePaths : Nat) : SearchParamInfo :=
  let info1 := if numReferencePaths > 1 then duplicatePaths info numReferencePaths else info
  { info1 with paths := prependPaths info1.paths numReferencePaths }

/-- `SearchParamInfo.clone`.  Modelled from the spec: `clone` lives in
the search package's `query.go`, which is not among the provided
sources; per the spec, "`SearchParamInfo` is cloneable; the compiler
must never mutate the shared dictionary entry", so `clone` allocates a
fresh, independent copy.  In the heap model it appends a copy of the
referenced cell and returns the new cell's index. -/
def cloneInfo (h : InfoHeap) (r : Nat) : InfoHeap × Nat :=
  (h ++ [h.getD r default], h.length)

/-- One parameter's treatment: clone its info, rewrite the clone's
paths in place, `setInfo` the parameter to the clone.  Returns the new
heap and the new info reference. -/
def prependOne (h : InfoHeap) (r : Nat) (numReferencePaths : Nat) : InfoHeap × Nat :=
  let c := cloneInfo h r
  (c.1.set c.2 (rewriteInfo (c.1.getD c.2 default) numReferencePaths), c.2)

/-- `prependLookupKeyToSearchPaths`: for each matchable parameter
(recursing into an `OrParam`'s items), clone-and-rewrite its info. -/
def prependLookupKeyToSearchPaths (h : InfoHeap) (params : List MatchParam)
    (numReferencePaths : Nat) : InfoHeap × List MatchParam :=
  params.foldl (fun acc mp =>
    match mp with
    | .orParam selfRef items =>
      -- Need to prepend to the OrParam's SearchParam items instead
      let res := items.foldl (fun (a : InfoHeap × List Nat) itemRef =>
        let one := prependOne a.1 itemRef numReferencePaths
        (one.1, a.2 ++ [one.2])) (acc.1, ([] : List Nat))
      (res.1, acc.2 ++ [MatchParam.orParam selfRef res.2])
    | .simple r =>
      let one := prependOne acc.1 r numReferencePaths
      (one.1, acc.2 ++ [MatchParam.simple one.2])) (h, ([] : List MatchParam))

end FhirSearch

/-! ## A concrete document model for date predicates

Used to state what the date selectors mean: a stored ranged date is its
denormalised `__from`/`__to` bounds, and the driver's comparator
semantics interprets the operator documents the selectors emit. -/

namespace FhirSearch

/-- A stored ranged date value: the denormalised `__from`/`__to`
bounds. -/
structure DateDoc where
  fromBound : Int
  toBound : Int

/-- The driver's comparator semantics for an operator document over an
ordered value (the fragment the date selectors emit). -/
def evalCmp (c : BDoc) (x : Int) : Bool :=
  c.all (fun kv =>
    match kv with
    | ("$gte", .num v) => decide (x ≥ v)
    | ("$gt", .num v) => decide (x > v)
    | ("$lte", .num v) => decide (x ≤ v)
    | ("$lt", .num v) => decide (x < v)
    | _ => false)

/-- The atomic matching semantics for the flat date selectors: `__from`
is matched against the stored lower bound, `__to` against the stored
upper bound. -/
def dateAtom (k : String) (v : BVal) (d : DateDoc) : Bool :=
  match k, v with
  | "__from", .doc c => evalCmp c d.fromBound
  | "__to", .doc c => evalCmp c d.toBound
  | _, _ => false

end FhirSearch

/-! # Theorems

## C9: idempotence of the field-path normalisation -/

namespace FhirSearch

theorem convBI_id_of_no_bracket : ∀ (l : List Char), '[' ∉ l → convBI l = l := by
  intro l
  induction l with
  | nil => intro _; exact convBI_nil
  | cons c rest ih =>
    intro h
    have hc : c ≠ '[' := fun hc => h (hc ▸ List.mem_cons_self c rest)
    rw [convBI_cons, if_neg hc, ih (fun hm => h (List.mem_cons_of_mem c hm))]

theorem removeEmptyBrackets_id_of_no_bracket :
    ∀ (l : List Char), '[' ∉ l → removeEmptyBrackets l = l := by
  intro l
  induction l using removeEmptyBrackets.induct with
  | case1 rest _ =>
    intro h
    exact absurd (List.mem_cons_self '[' _) h
  | case2 c rest hne ih =>
    intro h
    rw [removeEmptyBrackets]
    · rw [ih (fun hm => h (List.mem_cons_of_mem c hm))]
    · exact hne
  | case3 => intro _; rfl

/-- A path whose normal form is bracket-free (every well-formed FHIR
path, where each `[N]`/`[]` marker starts a dot-segment whose key has
no further brackets, is such) normalises to a fixed point. -/
theorem convertSearchPathToMongoField_id_of_no_bracket (s : String)
    (h : '[' ∉ s.toList) : convertSearchPathToMongoField s = s := by
  cases s with
  | mk data =>
    show String.mk (removeEmptyBrackets (convBI data)) = String.mk data
    rw [convBI_id_of_no_bracket data h, removeEmptyBrackets_id_of_no_bracket data h]

/-- C9 (corrected): the field-path normalisation is idempotent on every
path whose one-pass normal form contains no bracket — in particular on
every path following the `[]key` / `[N]key` segment grammar.  (As
stated over *all* strings the claim fails: see
`normalise_not_idempotent_cex`.) -/
theorem normalise_idempotent_of_bracket_free (p : String)
    (h : '[' ∉ (convertSearchPathToMongoField p).toList) :
    convertSearchPathToMongoField (convertSearchPathToMongoField p) =
      convertSearchPathToMongoField p :=
  convertSearchPathToMongoField_id_of_no_bracket _ h

theorem normalise_idempotent_of_bracket_free_witness :
    ('[' ∉ (convertSearchPathToMongoField "[0]entry.[]resource").toList) ∧
      convertSearchPathToMongoField (convertSearchPathToMongoField "[0]entry.[]resource") =
        convertSearchPathToMongoField "[0]entry.[]resource" :=
  ⟨by decide, normalise_idempotent_of_bracket_free "[0]entry.[]resource" (by decide)⟩

/-- C9's counterexample: on `"[1][2]a"` (a numeric index marker whose
key segment contains a further marker) one pass yields `"[2]a.1"` and a
second pass yields `"a.2.1"`, so `normalise ∘ normalise ≠ normalise`
on arbitrary strings. -/
theorem normalise_not_idempotent_cex :
    convertSearchPathToMongoField (convertSearchPathToMongoField "[1][2]a") ≠
        convertSearchPathToMongoField "[1][2]a" ∧
      convertSearchPathToMongoField "[1][2]a" = "[2]a.1" ∧
      convertSearchPathToMongoField (convertSearchPathToMongoField "[1][2]a") = "a.2.1" := by
  refine ⟨by decide, by decide, by decide⟩

end FhirSearch
/-! ## C5: the pipeline assembler never mutates dictionary cells -/

namespace FhirSearch

/-- The step function of the outer fold of
`prependLookupKeyToSearchPaths`. -/
def prependStep (n : Nat) (acc : InfoHeap × List MatchParam) (mp : MatchParam) :
    InfoHeap × List MatchParam :=
  match mp with
  | .orParam selfRef items =>
    let res := items.foldl (fun (a : InfoHeap × List Nat) itemRef =>
      let one := prependOne a.1 itemRef n
      (one.1, a.2 ++ [one.2])) (acc.1, ([] : List Nat))
    (res.1, acc.2 ++ [MatchParam.orParam selfRef res.2])
  | .simple r =>
    let one := prependOne acc.1 r n
    (one.1, acc.2 ++ [MatchParam.simple one.2])

theorem prependLookupKeyToSearchPaths_eq_foldl (h : InfoHeap) (params : List MatchParam)
    (n : Nat) :
    prependLookupKeyToSearchPaths h params n = params.foldl (prependStep n) (h, []) := rfl

/-- `h'` extends `h`: every pre-existing cell is unchanged. -/
def HeapExtends (h h' : InfoHeap) : Prop :=
  h.length ≤ h'.length ∧ ∀ i, i < h.length → h'.getD i default = h.getD i default

theorem heapExtends_refl (h : InfoHeap) : HeapExtends h h :=
  ⟨le_refl _, fun _ _ => rfl⟩

theorem heapExtends_trans {h1 h2 h3 : InfoHeap}
    (a : HeapExtends h1 h2) (b : HeapExtends h2 h3) : HeapExtends h1 h3 :=
  ⟨le_trans a.1 b.1, fun i hi => (b.2 i (lt_of_lt_of_le hi a.1)).trans (a.2 i hi)⟩

theorem prependOne_extends (h : InfoHeap) (r n : Nat) :
    HeapExtends h (prependOne h r n).1 := by
  unfold prependOne cloneInfo
  refine ⟨by simp, ?_⟩
  intro i hi
  show ((h ++ [h.getD r default]).set h.length _).getD i default = h.getD i default
  have hlen : ((h ++ [h.getD r default]).set h.length
      (rewriteInfo ((h ++ [h.getD r default], h.length).1.getD
        (h ++ [h.getD r default], h.length).2 default) n)).length = h.length + 1 := by simp
  rw [List.getD_eq_getElem _ _ (by omega), List.getD_eq_getElem _ _ hi]
  rw [List.getElem_set_ne (by omega)]
  exact List.getElem_append_left hi

theorem orItemsFold_extends (n : Nat) :
    ∀ (items : List Nat) (a : InfoHeap × List Nat),
      HeapExtends a.1 (items.foldl (fun (a : InfoHeap × List Nat) itemRef =>
        let one := prependOne a.1 itemRef n
        (one.1, a.2 ++ [one.2])) a).1 := by
  intro items
  induction items with
  | nil => intro a; exact heapExtends_refl _
  | cons r rest ih =>
    intro a
    rw [List.foldl_cons]
    exact heapExtends_trans (prependOne_extends a.1 r n)
      (ih ((prependOne a.1 r n).1, a.2 ++ [(prependOne a.1 r n).2]))

theorem prependFold_extends (n : Nat) :
    ∀ (params : List MatchParam) (a : InfoHeap × List MatchParam),
      HeapExtends a.1 (params.foldl (prependStep n) a).1 := by
  intro params
  induction params with
  | nil => intro a; exact heapExtends_refl _
  | cons mp rest ih =>
    intro a
    rw [List.foldl_cons]
    refine heapExtends_trans ?_ (ih (prependStep n a mp))
    cases mp with
    | orParam selfRef items => exact orItemsFold_extends n items (a.1, [])
    | simple r => exact prependOne_extends a.1 r n

/-- C5 (confirmed; `SearchParamInfo.clone` modelled from the spec): the
pipeline prefixing clones each `SearchParamInfo` before rewriting it,
so every pre-existing heap cell — in particular every info reachable
from the shared parameter dictionary — is unchanged by
`prependLookupKeyToSearchPaths`; each rewritten clone carries exactly
the `_lookup{i % numReferencePaths}.`-prefixed (and, for multi-path
references, N-fold duplicated) paths of the original; and
`duplicatePaths` duplicates as specified (`[a, b]` with `n = 3` gives
`[a, a, a, b, b, b]`). -/
theorem prependLookup_preserves_dictionary (h : InfoHeap) (params : List MatchParam)
    (n : Nat) :
    (∀ i, i < h.length →
        (prependLookupKeyToSearchPaths h params n).1.getD i default = h.getD i default) ∧
      (∀ r, ((prependOne h r n).1.getD (prependOne h r n).2 default) =
        rewriteInfo (h.getD r default) n) ∧
      (∀ (info : SearchParamInfo) (a b : SearchParamPath), info.paths = [a, b] →
        (duplicatePaths info 3).paths = [a, a, a, b, b, b]) := by
  refine ⟨?_, ?_, ?_⟩
  · intro i hi
    rw [prependLookupKeyToSearchPaths_eq_foldl]
    exact (prependFold_extends n params (h, [])).2 i hi
  · intro r
    show ((h ++ [h.getD r default]).set h.length
        (rewriteInfo ((h ++ [h.getD r default]).getD h.length default) n)).getD h.length default
      = rewriteInfo (h.getD r default) n
    have hget : (h ++ [h.getD r default]).getD h.length default = h.getD r default := by
      rw [List.getD_append_right _ _ _ _ (le_refl _)]
      simp
    have hlen : ((h ++ [h.getD r default]).set h.length
        (rewriteInfo ((h ++ [h.getD r default]).getD h.length default) n)).length
          = h.length + 1 := by simp
    rw [List.getD_eq_getElem _ _ (by omega), List.getElem_set_self, hget]
  · intro info a b hab
    unfold duplicatePaths
    simp [hab]

theorem prependLookup_preserves_dictionary_witness :
    (0 < ([⟨"code", [⟨"code", "token"⟩], Pfx.eq, "", []⟩] : InfoHeap).length) ∧
      (prependLookupKeyToSearchPaths [⟨"code", [⟨"code", "token"⟩], Pfx.eq, "", []⟩]
          [MatchParam.simple 0] 1).1.getD 0 default =
        ([⟨"code", [⟨"code", "token"⟩], Pfx.eq, "", []⟩] : InfoHeap).getD 0 default ∧
      ((duplicatePaths ⟨"n", [⟨"a", "t"⟩, ⟨"b", "t"⟩], Pfx.eq, "", []⟩ 3).paths =
        [⟨"a", "t"⟩, ⟨"a", "t"⟩, ⟨"a", "t"⟩, ⟨"b", "t"⟩, ⟨"b", "t"⟩, ⟨"b", "t"⟩]) :=
  ⟨by decide,
   (prependLookup_preserves_dictionary [⟨"code", [⟨"code", "token"⟩], Pfx.eq, "", []⟩]
      [MatchParam.simple 0] 1).1 0 (by decide),
   (prependLookup_preserves_dictionary [⟨"code", [⟨"code", "token"⟩], Pfx.eq, "", []⟩]
      [MatchParam.simple 0] 1).2.2 _ ⟨"a", "t"⟩ ⟨"b", "t"⟩ rfl⟩

end FhirSearch

/-! ## C8: unsupported-search errors (composite, decimal, system-less quantity) -/

namespace FhirSearch

/-- A `SearchError` as produced by `createUnsupportedSearchError`:
HTTP 501 with a `not-supported` outcome. -/
def IsUnsupported (e : SearchError) : Prop :=
  e.httpStatus = 501 ∧ e.outcome.issueType = "not-supported"

/-- Every error `numberSingle` can raise (decimal target, or an
SA/EB prefix) is an UnsupportedSearch error. -/
theorem numberSingle_error_unsupported (n : NumberParam) (p : SearchParamPath)
    (e : SearchError) (h : numberSingle n p = .error e) : IsUnsupported e := by
  by_cases hd : p.type = "decimal"
  · simp [numberSingle, hd] at h
    subst h
    exact ⟨rfl, rfl⟩
  · rcases hp : n.info.pfx with _ | _ | _ | _ | _ | _ | _ | _ <;>
      simp [numberSingle, hd, hp] at h <;>
      (subst h; exact ⟨rfl, rfl⟩)

theorem numberSingle_decimal (n : NumberParam) (p : SearchParamPath)
    (hd : p.type = "decimal") : ∃ e, numberSingle n p = .error e :=
  ⟨createUnsupportedSearchError "MSG_PARAM_INVALID"
      ("Parameter \"" ++ n.info.name ++ "\" (decimal type) is not yet supported"),
    by simp [numberSingle, hd]⟩

/-- Every error `quantitySingle` can raise is an UnsupportedSearch
error. -/
theorem quantitySingle_error_unsupported (m : Config) (q : QuantityParam)
    (p : SearchParamPath) (e : SearchError) (h : quantitySingle m q p = .error e) :
    IsUnsupported e := by
  by_cases hs : q.system = "" <;>
    rcases hp : q.info.pfx with _ | _ | _ | _ | _ | _ | _ | _ <;>
      simp [quantitySingle, quantityCriteria, hp, hs] at h <;>
      (subst h; exact ⟨rfl, rfl⟩)

/-- With no system on the search value, every path of a quantity
parameter raises. -/
theorem quantitySingle_no_system (m : Config) (q : QuantityParam) (p : SearchParamPath)
    (hs : q.system = "") : ∃ e, quantitySingle m q p = .error e := by
  rcases hp : q.info.pfx with _ | _ | _ | _ | _ | _ | _ | _ <;>
    simp [quantitySingle, quantityCriteria, hp, hs]

theorem except_bind_ok {ε α β : Type} (a : α) (f : α → Except ε β) :
    (Except.ok a >>= f) = f a := rfl

theorem except_bind_error {ε α β : Type} (e : ε) (f : α → Except ε β) :
    ((Except.error e : Except ε α) >>= f) = Except.error e := rfl

/-- An error raised while compiling any path propagates out of the
`orPaths` loop (the Go panic unwinds); if every error the per-path
builder can raise satisfies `P`, so does the loop's. -/
theorem collectOrResultsE_error {P : SearchError → Prop}
    (single : SearchParamPath → Except SearchError BDoc)
    (hclass : ∀ p e, single p = .error e → P e) :
    ∀ (paths : List SearchParamPath),
      (∃ p ∈ paths, ∃ e, single p = .error e) →
      ∃ e, collectOrResultsE single paths = .error e ∧ P e := by
  intro paths
  induction paths with
  | nil => rintro ⟨p, hp, -⟩; exact absurd hp (List.not_mem_nil p)
  | cons p rest ih =>
    rintro ⟨p', hp', e', he'⟩
    cases hsp : single p with
    | error e =>
      exact ⟨e, by simp [collectOrResultsE, hsp, except_bind_error], hclass p e hsp⟩
    | ok d =>
      rcases List.mem_cons.mp hp' with rfl | hmem
      · rw [hsp] at he'; exact absurd he' (by simp)
      · rcases ih ⟨p', hmem, e', he'⟩ with ⟨e, hc, hP⟩
        exact ⟨e, by simp [collectOrResultsE, hsp, hc, except_bind_ok, except_bind_error], hP⟩

theorem orPathsE_error {single : SearchParamPath → Except SearchError BDoc}
    {paths : List SearchParamPath} {e : SearchError}
    (h : collectOrResultsE single paths = .error e) :
    orPathsE single paths = .error e := by
  simp [orPathsE, h, except_bind_error]

/-- C8 (confirmed): compiling a composite parameter, a number parameter
with a decimal-typed target path, or a quantity parameter carrying no
system signals an UnsupportedSearch error — HTTP 501 with a
`not-supported` outcome — and produces no predicate document (the
builder returns an error instead of a document). -/
theorem unsupported_search_errors :
    (∀ (c : CompositeParam), ∃ e, createCompositeQueryObject c = .error e ∧
        IsUnsupported e) ∧
      (∀ (n : NumberParam), (∃ p ∈ n.info.paths, p.type = "decimal") →
        ∃ e, createNumberQueryObject n = .error e ∧ IsUnsupported e) ∧
      (∀ (m : Config) (q : QuantityParam), q.system = "" → q.info.paths ≠ [] →
        ∃ e, createQuantityQueryObject m q = .error e ∧ IsUnsupported e) := by
  refine ⟨?_, ?_, ?_⟩
  · intro c
    exact ⟨_, rfl, rfl, rfl⟩
  · rintro n ⟨p, hp, hdec⟩
    rcases numberSingle_decimal n p hdec with ⟨e0, he0⟩
    rcases collectOrResultsE_error (numberSingle n) (numberSingle_error_unsupported n)
      n.info.paths ⟨p, hp, e0, he0⟩ with ⟨e, hc, hP⟩
    exact ⟨e, orPathsE_error hc, hP⟩
  · intro m q hs hne
    rcases hpaths : q.info.paths with _ | ⟨p0, rest⟩
    · exact absurd hpaths hne
    · rcases quantitySingle_no_system m q p0 hs with ⟨e0, he0⟩
      rcases collectOrResultsE_error (quantitySingle m q)
        (quantitySingle_error_unsupported m q) (p0 :: rest)
        ⟨p0, List.mem_cons_self p0 rest, e0, he0⟩ with ⟨e, hc, hP⟩
      refine ⟨e, ?_, hP⟩
      show orPathsE (quantitySingle m q) q.info.paths = .error e
      rw [hpaths]
      exact orPathsE_error hc

theorem unsupported_search_errors_witness :
    (∃ p ∈ ([⟨"probability", "decimal"⟩] : List SearchParamPath), p.type = "decimal") ∧
      (∃ e, createNumberQueryObject
          ⟨⟨"probability", [⟨"probability", "decimal"⟩], Pfx.eq, "", []⟩, ⟨1, 2, 1⟩⟩ = .error e ∧
        IsUnsupported e) ∧
      (∃ e, createQuantityQueryObject ⟨true, true, false, true⟩
          ⟨⟨"value-quantity", [⟨"valueQuantity", "Quantity"⟩], Pfx.eq, "", []⟩, ⟨1, 2, 1⟩, "", "mg"⟩
            = .error e ∧ IsUnsupported e) :=
  ⟨⟨⟨"probability", "decimal"⟩, by simp, rfl⟩,
   unsupported_search_errors.2.1
     ⟨⟨"probability", [⟨"probability", "decimal"⟩], Pfx.eq, "", []⟩, ⟨1, 2, 1⟩⟩
     ⟨⟨"probability", "decimal"⟩, by simp, rfl⟩,
   unsupported_search_errors.2.2 ⟨true, true, false, true⟩
     ⟨⟨"value-quantity", [⟨"valueQuantity", "Quantity"⟩], Pfx.eq, "", []⟩, ⟨1, 2, 1⟩, "", "mg"⟩
     rfl (by simp)⟩

end FhirSearch

/-! ## C4: the date prefix table over `__from`/`__to` -/

namespace FhirSearch

/-- C4 (confirmed): for `date`/`dateTime` targets the emitted predicate
follows the prefix table over the stored `__from`/`__to` bounds — `eq`
requires `__from ≥ RangeLowIncl ∧ __to ≤ RangeHighExcl`; `gt` requires
`__to > RangeHighExcl`; `lt` requires `__from < RangeLowIncl`; `ge` is
the disjunction `__to ≥ RangeHighExcl ∨ __from ≥ RangeLowIncl`; `le`
the symmetric disjunction; `sa` requires `__from > RangeHighExcl`; `eb`
requires `__to < RangeLowIncl` — and a `Timing` target applies the very
same selector to the path extended with `.event`. -/
theorem dateSelector_prefix_table (d : DateParam) :
    (d.info.pfx = .eq → ∃ sel, dateSelector d = .ok sel ∧ ∀ doc : DateDoc,
      (evalDoc dateAtom sel doc = true ↔
        d.date.rangeLowIncl ≤ doc.fromBound ∧ doc.toBound ≤ d.date.rangeHighExcl)) ∧
    (d.info.pfx = .gt → ∃ sel, dateSelector d = .ok sel ∧ ∀ doc : DateDoc,
      (evalDoc dateAtom sel doc = true ↔ d.date.rangeHighExcl < doc.toBound)) ∧
    (d.info.pfx = .lt → ∃ sel, dateSelector d = .ok sel ∧ ∀ doc : DateDoc,
      (evalDoc dateAtom sel doc = true ↔ doc.fromBound < d.date.rangeLowIncl)) ∧
    (d.info.pfx = .ge → ∃ sel, dateSelector d = .ok sel ∧ ∀ doc : DateDoc,
      (evalDoc dateAtom sel doc = true ↔
        d.date.rangeHighExcl ≤ doc.toBound ∨ d.date.rangeLowIncl ≤ doc.fromBound)) ∧
    (d.info.pfx = .le → ∃ sel, dateSelector d = .ok sel ∧ ∀ doc : DateDoc,
      (evalDoc dateAtom sel doc = true ↔
        doc.fromBound ≤ d.date.rangeLowIncl ∨ doc.toBound ≤ d.date.rangeHighExcl)) ∧
    (d.info.pfx = .sa → ∃ sel, dateSelector d = .ok sel ∧ ∀ doc : DateDoc,
      (evalDoc dateAtom sel doc = true ↔ d.date.rangeHighExcl < doc.fromBound)) ∧
    (d.info.pfx = .eb → ∃ sel, dateSelector d = .ok sel ∧ ∀ doc : DateDoc,
      (evalDoc dateAtom sel doc = true ↔ doc.toBound < d.date.rangeLowIncl)) ∧
    (∀ pth : String,
      dateSingle d ⟨pth, "Timing"⟩ =
        (dateSelector d).map (fun c => buildBSON (pth ++ ".event") (.doc c)) ∧
      dateSingle d ⟨pth, "date"⟩ =
        (dateSelector d).map (fun c => buildBSON pth (.doc c)) ∧
      dateSingle d ⟨pth, "dateTime"⟩ =
        (dateSelector d).map (fun c => buildBSON pth (.doc c))) := by
  refine ⟨?_, ?_, ?_, ?_, ?_, ?_, ?_, ?_⟩
  · intro hp
    refine ⟨_, by simp [dateSelector, hp]; try rfl, ?_⟩
    intro doc
    simp [evalDoc, evalEntry, dateAtom, evalCmp, and_comm]
  · intro hp
    refine ⟨_, by simp [dateSelector, hp]; try rfl, ?_⟩
    intro doc
    simp [evalDoc, evalEntry, dateAtom, evalCmp]
  · intro hp
    refine ⟨_, by simp [dateSelector, hp]; try rfl, ?_⟩
    intro doc
    simp [evalDoc, evalEntry, dateAtom, evalCmp]
  · intro hp
    refine ⟨_, by simp [dateSelector, hp]; try rfl, ?_⟩
    intro doc
    simp [evalDoc, evalEntry, evalOrList, dateAtom, evalCmp]
  · intro hp
    refine ⟨_, by simp [dateSelector, hp]; try rfl, ?_⟩
    intro doc
    simp [evalDoc, evalEntry, evalOrList, dateAtom, evalCmp]
  · intro hp
    refine ⟨_, by simp [dateSelector, hp]; try rfl, ?_⟩
    intro doc
    simp [evalDoc, evalEntry, dateAtom, evalCmp]
  · intro hp
    refine ⟨_, by simp [dateSelector, hp]; try rfl, ?_⟩
    intro doc
    simp [evalDoc, evalEntry, dateAtom, evalCmp]
  · intro pth
    exact ⟨rfl, rfl, rfl⟩

theorem dateSelector_prefix_table_witness :
    ((⟨⟨"date", [⟨"effectiveDateTime", "dateTime"⟩], Pfx.eq, "", []⟩,
        ⟨0, 10⟩⟩ : DateParam).info.pfx = Pfx.eq) ∧
      (∃ sel, dateSelector ⟨⟨"date", [⟨"effectiveDateTime", "dateTime"⟩], Pfx.eq, "", []⟩,
          ⟨0, 10⟩⟩ = .ok sel ∧ ∀ doc : DateDoc,
        (evalDoc dateAtom sel doc = true ↔ 0 ≤ doc.fromBound ∧ doc.toBound ≤ 10)) :=
  ⟨rfl,
   (dateSelector_prefix_table ⟨⟨"date", [⟨"effectiveDateTime", "dateTime"⟩], Pfx.eq, "", []⟩,
      ⟨0, 10⟩⟩).1 rfl⟩

end FhirSearch

/-! ## C3: OR-over-paths -/

namespace FhirSearch

theorem evalOrList_append {δ : Type} (atom : String → BVal → δ → Bool) :
    ∀ (l1 l2 : List BDoc) (d : δ),
      evalOrList atom (l1 ++ l2) d = (evalOrList atom l1 d || evalOrList atom l2 d) := by
  intro l1
  induction l1 with
  | nil => intro l2 d; simp [evalOrList]
  | cons q rest ih =>
    intro l2 d
    simp [evalOrList, ih, Bool.or_assoc]

theorem collectOrResults_eval {δ : Type} (atom : String → BVal → δ → Bool)
    (f : SearchParamPath → BDoc) :
    ∀ (paths : List SearchParamPath) (d : δ),
      evalOrList atom (collectOrResults f paths) d
        = paths.any (fun p => evalDoc atom (f p) d) := by
  intro paths
  induction paths with
  | nil => intro d; simp [collectOrResults, evalOrList]
  | cons p rest ih =>
    intro d
    rw [collectOrResults]
    split
    · rename_i l heq
      rw [evalOrList_append, ih]
      simp [heq, evalDoc, evalEntry]
    · rename_i r heq
      simp [evalOrList, ih]

/-- The emitted predicate of `orPaths` is equivalent (under any atomic
matching semantics) to the disjunction of the per-path predicates. -/
theorem orPaths_eval {δ : Type} (atom : String → BVal → δ → Bool)
    (f : SearchParamPath → BDoc) (paths : List SearchParamPath) (d : δ) :
    evalDoc atom (orPaths f paths) d = paths.any (fun p => evalDoc atom (f p) d) := by
  rw [← collectOrResults_eval atom f paths d]
  rw [orPaths]
  rcases h : collectOrResults f paths with _ | ⟨r, _ | ⟨r2, rs⟩⟩
  · simp [evalDoc, evalEntry, evalOrList]
  · simp [evalDoc, evalEntry, evalOrList]
  · simp [evalDoc, evalEntry, evalOrList]

/-- C3 (corrected): the emitted predicate is equivalent to the
disjunction of the per-path predicates under every atomic matching
semantics; a per-path result that is a single-key top-level `$or`
contributes its branches directly to the outer disjunction; and with a
single path the per-path predicate is returned as-is — except when it
is a single-key `$or` with exactly one branch, in which case that sole
branch (an equivalent document) is returned instead (see
`orPaths_single_path_cex`). -/
theorem orPaths_disjunction_spec :
    (∀ (δ : Type) (atom : String → BVal → δ → Bool) (f : SearchParamPath → BDoc)
        (paths : List SearchParamPath) (d : δ),
      evalDoc atom (orPaths f paths) d = paths.any (fun p => evalDoc atom (f p) d)) ∧
      (∀ (f : SearchParamPath → BDoc) (p : SearchParamPath) (rest : List SearchParamPath)
          (l : List BDoc), f p = [("$or", .docs l)] →
        collectOrResults f (p :: rest) = l ++ collectOrResults f rest) ∧
      (∀ (f : SearchParamPath → BDoc) (p : SearchParamPath),
        orPaths f [p] = f p ∨
          ∃ b, f p = [("$or", .docs [b])] ∧ orPaths f [p] = b) := by
  refine ⟨fun δ => orPaths_eval, ?_, ?_⟩
  · intro f p rest l h
    rw [collectOrResults, h]
    rfl
  · intro f p
    rcases hfp : f p with _ | ⟨⟨k, v⟩, _ | ⟨kv2, t⟩⟩
    · left
      rw [orPaths, collectOrResults, hfp]
      rfl
    · by_cases hk : k = "$or"
      · subst hk
        cases v with
        | docs l =>
          rcases l with _ | ⟨b, _ | ⟨b2, bs⟩⟩
          · left
            rw [orPaths, collectOrResults, hfp]
            rfl
          · right
            refine ⟨b, rfl, ?_⟩
            rw [orPaths, collectOrResults, hfp]
            rfl
          · left
            rw [orPaths, collectOrResults, hfp]
            simp [collectOrResults]
        | str s => left; rw [orPaths, collectOrResults, hfp]; rfl
        | num n => left; rw [orPaths, collectOrResults, hfp]; rfl
        | bool b => left; rw [orPaths, collectOrResults, hfp]; rfl
        | null => left; rw [orPaths, collectOrResults, hfp]; rfl
        | regex a b => left; rw [orPaths, collectOrResults, hfp]; rfl
        | doc c => left; rw [orPaths, collectOrResults, hfp]; rfl
      · left
        have hcol : collectOrResults f [p] = [f p] := by
          rw [collectOrResults, hfp]
          split
          · rename_i l heq
            exact absurd (congrArg (fun d => BDoc.lookup d "$or") heq)
              (by simp [BDoc.lookup, hk])
          · rw [← hfp]
            rfl
        rw [orPaths, hcol]
        exact hfp
    · left
      have hcol : collectOrResults f [p] = [f p] := by
        rw [collectOrResults, hfp]
        split
        · rename_i l heq
          exact absurd heq (by simp)
        · rw [← hfp]
          rfl
      rw [orPaths, hcol]
      exact hfp

/-- C3's counterexample: with a single path whose per-path predicate is
a single-branch `$or`, `orPaths` returns the sole branch, not the
predicate as-is. -/
theorem orPaths_single_path_cex :
    orPaths (fun _ => [("$or", BVal.docs [[("x", BVal.num 1)]])]) [⟨"p", "string"⟩]
        = [("x", BVal.num 1)] ∧
      orPaths (fun _ => [("$or", BVal.docs [[("x", BVal.num 1)]])]) [⟨"p", "string"⟩]
        ≠ [("$or", BVal.docs [[("x", BVal.num 1)]])] := by
  refine ⟨rfl, ?_⟩
  intro h
  have h2 : ([("x", BVal.num 1)] : BDoc) = [("$or", BVal.docs [[("x", BVal.num 1)]])] := h
  simp at h2

theorem orPaths_disjunction_spec_witness :
    ((fun (_ : SearchParamPath) => ([("$or", BVal.docs [[("a", BVal.num 1)], [("b", BVal.num 2)]])] : BDoc)) ⟨"p", "t"⟩
        = [("$or", BVal.docs [[("a", BVal.num 1)], [("b", BVal.num 2)]])]) ∧
      collectOrResults (fun _ => [("$or", BVal.docs [[("a", BVal.num 1)], [("b", BVal.num 2)]])])
          [⟨"p", "t"⟩] =
        [[("a", BVal.num 1)], [("b", BVal.num 2)]] ++ collectOrResults
          (fun _ => [("$or", BVal.docs [[("a", BVal.num 1)], [("b", BVal.num 2)]])]) [] :=
  ⟨rfl,
   orPaths_disjunction_spec.2.1
     (fun _ => [("$or", BVal.docs [[("a", BVal.num 1)], [("b", BVal.num 2)]])])
     ⟨"p", "t"⟩ [] [[("a", BVal.num 1)], [("b", BVal.num 2)]] rfl⟩

end FhirSearch

/-! ## C7: string parameters -/

namespace FhirSearch

/-- The default (non-`HumanName`, non-`Address`) branch of
`createStringQueryObject`'s per-path closure. -/
theorem stringSingle_default (m : Config) (s : StringParam) (p : SearchParamPath)
    (h1 : p.type ≠ "HumanName") (h2 : p.type ≠ "Address") :
    stringSingle m s p =
      if s.info.name = "_id" then buildBSON p.path (.str s.str)
      else buildBSON p.path (ci m s.str) := by
  obtain ⟨pp, pt⟩ := p
  rw [stringSingle]
  split
  · rename_i heq
    exact absurd heq h1
  · rename_i heq
    exact absurd heq h2
  · rfl

/-- C7 (corrected): with case-insensitive searches enabled, a plain
target field gets a case-insensitive **exact** (anchored at both ends)
match — not a starts-with match; a `HumanName` target expands into a
disjunction of case-insensitive **starts-with** matches over `text`,
`family` and `given`; an `Address` target expands likewise over `text`,
`line`, `city`, `state`, `postalCode` and `country`; and the `_id`
parameter is bound exactly and case-sensitively, with no regex
wrapper. -/
theorem string_param_match_spec (m : Config) (hci : m.enableCISearches = true) :
    (∀ x : String, cisw m x = .regex ("^" ++ quoteMeta x) "i") ∧
      (∀ (s : StringParam) (p : SearchParamPath), p.type = "HumanName" →
        stringSingle m s p = buildBSON p.path (.doc [("$or", .docs
          [[("text", BVal.regex ("^" ++ quoteMeta s.str) "i")],
           [("family", BVal.regex ("^" ++ quoteMeta s.str) "i")],
           [("given", BVal.regex ("^" ++ quoteMeta s.str) "i")]])])) ∧
      (∀ (s : StringParam) (p : SearchParamPath), p.type = "Address" →
        stringSingle m s p = buildBSON p.path (.doc [("$or", .docs
          [[("text", BVal.regex ("^" ++ quoteMeta s.str) "i")],
           [("line", BVal.regex ("^" ++ quoteMeta s.str) "i")],
           [("city", BVal.regex ("^" ++ quoteMeta s.str) "i")],
           [("state", BVal.regex ("^" ++ quoteMeta s.str) "i")],
           [("postalCode", BVal.regex ("^" ++ quoteMeta s.str) "i")],
           [("country", BVal.regex ("^" ++ quoteMeta s.str) "i")]])])) ∧
      (∀ (s : StringParam) (p : SearchParamPath),
        p.type ≠ "HumanName" → p.type ≠ "Address" → s.info.name ≠ "_id" →
        stringSingle m s p =
          [(convertSearchPathToMongoField p.path,
            BVal.regex ("^" ++ quoteMeta s.str ++ "$") "i")]) ∧
      (∀ (s : StringParam) (p : SearchParamPath),
        p.type ≠ "HumanName" → p.type ≠ "Address" → s.info.name = "_id" →
        stringSingle m s p = [(convertSearchPathToMongoField p.path, BVal.str s.str)]) ∧
      (∀ s : StringParam,
        createStringQueryObject m s = orPaths (stringSingle m s) s.info.paths) := by
  refine ⟨?_, ?_, ?_, ?_, ?_, fun s => rfl⟩
  · intro x
    simp [cisw, hci]
  · intro s p htype
    obtain ⟨pp, pt⟩ := p
    simp only at htype
    subst htype
    rw [stringSingle]
    simp [cisw, hci]
  · intro s p htype
    obtain ⟨pp, pt⟩ := p
    simp only at htype
    subst htype
    rw [stringSingle]
    simp [cisw, hci]
  · intro s p h1 h2 hname
    rw [stringSingle_default m s p h1 h2, if_neg hname,
      buildBSON_of_scalar _ _ (by intro d; simp [ci, hci]),
      show ci m s.str = BVal.regex ("^" ++ quoteMeta s.str ++ "$") "i" from by simp [ci, hci]]
  · intro s p h1 h2 hname
    rw [stringSingle_default m s p h1 h2, if_pos hname,
      buildBSON_of_scalar _ _ (by intro d; simp)]

/-- C7's counterexample: with CI searches enabled, the predicate for a
plain string field (`name=abc`) is the anchored exact-match regex
`^abc$`, not the starts-with regex `^abc` that `cisw` would give. -/
theorem string_param_exact_match_cex :
    createStringQueryObject ⟨true, true, false, false⟩
        ⟨⟨"name", [⟨"name", "string"⟩], Pfx.eq, "", []⟩, "abc"⟩
        = [("name", BVal.regex "^abc$" "i")] ∧
      createStringQueryObject ⟨true, true, false, false⟩
        ⟨⟨"name", [⟨"name", "string"⟩], Pfx.eq, "", []⟩, "abc"⟩
        ≠ [("name", cisw ⟨true, true, false, false⟩ "abc")] ∧
      cisw ⟨true, true, false, false⟩ "abc" = BVal.regex "^abc" "i" := by
  have hsingle : stringSingle ⟨true, true, false, false⟩
      ⟨⟨"name", [⟨"name", "string"⟩], Pfx.eq, "", []⟩, "abc"⟩ ⟨"name", "string"⟩
      = [("name", BVal.regex "^abc$" "i")] := by
    rw [show stringSingle ⟨true, true, false, false⟩
        ⟨⟨"name", [⟨"name", "string"⟩], Pfx.eq, "", []⟩, "abc"⟩ ⟨"name", "string"⟩
      = buildBSON "name" (ci ⟨true, true, false, false⟩ "abc") from rfl]
    rw [buildBSON_of_scalar _ _ (by intro d; simp [ci])]
    rw [show convertSearchPathToMongoField "name" = "name" from by decide]
    rw [show ci ⟨true, true, false, false⟩ "abc"
      = BVal.regex ("^" ++ quoteMeta "abc" ++ "$") "i" from rfl]
    rw [show ("^" ++ quoteMeta "abc" ++ "$" : String) = "^abc$" from by decide]
  have hmain : createStringQueryObject ⟨true, true, false, false⟩
      ⟨⟨"name", [⟨"name", "string"⟩], Pfx.eq, "", []⟩, "abc"⟩
      = [("name", BVal.regex "^abc$" "i")] := by
    rw [show createStringQueryObject ⟨true, true, false, false⟩
        ⟨⟨"name", [⟨"name", "string"⟩], Pfx.eq, "", []⟩, "abc"⟩
      = orPaths (stringSingle ⟨true, true, false, false⟩
          ⟨⟨"name", [⟨"name", "string"⟩], Pfx.eq, "", []⟩, "abc"⟩)
          [⟨"name", "string"⟩] from rfl]
    rw [orPaths, collectOrResults, hsingle]
    rfl
  have hcisw : cisw ⟨true, true, false, false⟩ "abc" = BVal.regex "^abc" "i" := by
    rw [show cisw ⟨true, true, false, false⟩ "abc"
      = BVal.regex ("^" ++ quoteMeta "abc") "i" from rfl]
    rw [show ("^" ++ quoteMeta "abc" : String) = "^abc" from by decide]
  refine ⟨hmain, ?_, hcisw⟩
  rw [hmain, hcisw]
  intro h
  simp at h

theorem string_param_match_spec_witness :
    ((⟨true, true, false, false⟩ : Config).enableCISearches = true) ∧
      stringSingle ⟨true, true, false, false⟩
          ⟨⟨"name", [⟨"[]name", "HumanName"⟩], Pfx.eq, "", []⟩, "ab"⟩ ⟨"[]name", "HumanName"⟩
        = buildBSON "[]name" (.doc [("$or", .docs
            [[("text", BVal.regex ("^" ++ quoteMeta "ab") "i")],
             [("family", BVal.regex ("^" ++ quoteMeta "ab") "i")],
             [("given", BVal.regex ("^" ++ quoteMeta "ab") "i")]])]) :=
  ⟨rfl,
   (string_param_match_spec ⟨true, true, false, false⟩ rfl).2.1
     ⟨⟨"name", [⟨"[]name", "HumanName"⟩], Pfx.eq, "", []⟩, "ab"⟩
     ⟨"[]name", "HumanName"⟩ rfl⟩

end FhirSearch

/-! ## C6: token parameters -/

namespace FhirSearch

/-- C6 (confirmed): the `(system, code, anySystem)` tuple determines the
criteria parts — empty code gives a system-only criterion; code with an
empty system and `anySystem` gives a code-only criterion; code with an
empty system and `anySystem = false` adds the requirement that the
system field is absent (`$exists: false`); both present gives both —
and for `CodeableConcept` targets, two present parts are combined under
one `$elemMatch` on the `coding` array, while a single part is bound to
`coding.system` / `coding.code` separately. -/
theorem token_system_code_spec (m : Config) (t : TokenParam) :
    (t.code = "" → tokenSystemCodeCriteria m t = (some (ciToken m t.system), none)) ∧
      (t.code ≠ "" → t.system = "" → t.anySystem = true →
        tokenSystemCodeCriteria m t = (none, some (ciToken m t.code))) ∧
      (t.code ≠ "" → t.system = "" → t.anySystem = false →
        tokenSystemCodeCriteria m t =
          (some (.doc [("$exists", .bool false)]), some (ciToken m t.code))) ∧
      (t.code ≠ "" → t.system ≠ "" →
        tokenSystemCodeCriteria m t = (some (ciToken m t.system), some (ciToken m t.code))) ∧
      (∀ (p : SearchParamPath), p.type = "Coding" →
        ∀ sc cc, tokenSystemCodeCriteria m t = (sc, cc) →
          tokenSingle m t p = .ok (buildBSON p.path (.doc (addOpt (addOpt [] "system" sc) "code" cc)))) ∧
      (∀ (p : SearchParamPath), p.type = "CodeableConcept" →
        ∀ s c, tokenSystemCodeCriteria m t = (some s, some c) →
          tokenSingle m t p = .ok (buildBSON p.path (.doc
            [("coding", .doc [("$elemMatch", .doc [("system", s), ("code", c)])])]))) ∧
      (∀ (p : SearchParamPath), p.type = "CodeableConcept" →
        ∀ c, tokenSystemCodeCriteria m t = (none, some c) →
          tokenSingle m t p = .ok (buildBSON p.path (.doc [("coding.code", c)]))) ∧
      (∀ (p : SearchParamPath), p.type = "CodeableConcept" →
        ∀ s, tokenSystemCodeCriteria m t = (some s, none) →
          tokenSingle m t p = .ok (buildBSON p.path (.doc [("coding.system", s)]))) := by
  refine ⟨?_, ?_, ?_, ?_, ?_, ?_, ?_, ?_⟩
  · intro hc
    simp [tokenSystemCodeCriteria, hc]
  · intro hc hs ha
    simp [tokenSystemCodeCriteria, hc, hs, ha]
  · intro hc hs ha
    simp [tokenSystemCodeCriteria, hc, hs, ha]
  · intro hc hs
    simp [tokenSystemCodeCriteria, hc, hs]
  · intro p htype sc cc hsc
    obtain ⟨pp, pt⟩ := p
    simp only at htype
    subst htype
    rw [tokenSingle]
    simp [hsc]
  · intro p htype s c hsc
    obtain ⟨pp, pt⟩ := p
    simp only at htype
    subst htype
    rw [tokenSingle]
    simp [hsc]
  · intro p htype c hsc
    obtain ⟨pp, pt⟩ := p
    simp only at htype
    subst htype
    rw [tokenSingle]
    simp [hsc, addOpt, BDoc.setKey]
  · intro p htype s hsc
    obtain ⟨pp, pt⟩ := p
    simp only at htype
    subst htype
    rw [tokenSingle]
    simp [hsc, addOpt, BDoc.setKey]

theorem token_system_code_spec_witness :
    (("1234-5" : String) ≠ "" ∧ ("" : String) = "" ∧ true = true) ∧
      tokenSystemCodeCriteria ⟨true, true, false, false⟩
          ⟨⟨"code", [⟨"[]code", "CodeableConcept"⟩], Pfx.eq, "", []⟩, "", "1234-5", true⟩
        = (none, some (ciToken ⟨true, true, false, false⟩ "1234-5")) ∧
      tokenSingle ⟨true, true, false, false⟩
          ⟨⟨"code", [⟨"[]code", "CodeableConcept"⟩], Pfx.eq, "", []⟩, "", "1234-5", true⟩
          ⟨"[]code", "CodeableConcept"⟩
        = .ok (buildBSON "[]code" (.doc
            [("coding.code", ciToken ⟨true, true, false, false⟩ "1234-5")])) :=
  ⟨⟨by decide, rfl, rfl⟩,
   (token_system_code_spec ⟨true, true, false, false⟩
      ⟨⟨"code", [⟨"[]code", "CodeableConcept"⟩], Pfx.eq, "", []⟩, "", "1234-5", true⟩).2.1
     (by decide) rfl rfl,
   (token_system_code_spec ⟨true, true, false, false⟩
      ⟨⟨"code", [⟨"[]code", "CodeableConcept"⟩], Pfx.eq, "", []⟩, "", "1234-5", true⟩).2.2.2.2.2.2.1
     ⟨"[]code", "CodeableConcept"⟩ rfl (ciToken ⟨true, true, false, false⟩ "1234-5")
     (by rw [tokenSystemCodeCriteria]; rfl)⟩

end FhirSearch

/-! ## C2: the merge rule never silently overwrites -/

namespace FhirSearch

theorem lookup_append_of_some {l l2 : BDoc} {k : String} {w : BVal}
    (h : BDoc.lookup l k = some w) : BDoc.lookup (l ++ l2) k = some w := by
  induction l with
  | nil => exact absurd h (by simp [BDoc.lookup])
  | cons kv rest ih =>
    obtain ⟨k1, v1⟩ := kv
    by_cases hk : k1 = k
    · rw [BDoc.lookup, if_pos hk] at h
      simp [BDoc.lookup, hk, h]
    · rw [BDoc.lookup, if_neg hk] at h
      simp only [List.cons_append, BDoc.lookup, if_neg hk]
      exact ih h

theorem lookup_append_of_none {l : BDoc} {k : String}
    (h : BDoc.lookup l k = none) (l2 : BDoc) :
    BDoc.lookup (l ++ l2) k = BDoc.lookup l2 k := by
  induction l with
  | nil => simp
  | cons kv rest ih =>
    obtain ⟨k1, v1⟩ := kv
    by_cases hk : k1 = k
    · rw [BDoc.lookup, if_pos hk] at h
      exact absurd h (by simp)
    · rw [BDoc.lookup, if_neg hk] at h
      simp only [List.cons_append, BDoc.lookup, if_neg hk]
      exact ih h

theorem setKey_lookup_self (l : BDoc) (k : String) (v : BVal) :
    BDoc.lookup (BDoc.setKey l k v) k = some v := by
  induction l with
  | nil => simp [BDoc.setKey, BDoc.lookup]
  | cons kv rest ih =>
    obtain ⟨k1, v1⟩ := kv
    by_cases hk : k1 = k
    · simp [BDoc.setKey, hk, BDoc.lookup]
    · simp [BDoc.setKey, hk, BDoc.lookup, ih]

theorem setKey_lookup_ne (l : BDoc) {k1 k : String} (v : BVal) (h : k1 ≠ k) :
    BDoc.lookup (BDoc.setKey l k1 v) k = BDoc.lookup l k := by
  induction l with
  | nil => simp [BDoc.setKey, BDoc.lookup, h]
  | cons kv rest ih =>
    obtain ⟨k2, v2⟩ := kv
    by_cases hk : k2 = k1
    · simp [BDoc.setKey, hk, BDoc.lookup, h]
    · simp only [BDoc.setKey, if_neg hk, BDoc.lookup]
      by_cases hk2 : k2 = k
      · simp [hk2]
      · simp [hk2, ih]

theorem mergeFold_lookup_some :
    ∀ (from_ : BDoc) (acc : BDoc × List BDoc) (k : String) (w : BVal),
      BDoc.lookup acc.1 k = some w →
      BDoc.lookup ((from_.foldl mergeStep acc)).1 k = some w := by
  intro from_
  induction from_ with
  | nil => intro acc k w h; exact h
  | cons kv rest ih =>
    intro acc k w h
    rw [List.foldl_cons]
    apply ih
    obtain ⟨k1, v1⟩ := kv
    by_cases h1 : k1 = "$and"
    · simpa [mergeStep, h1] using h
    · by_cases h2 : BDoc.hasKey acc.1 k1
      · simpa [mergeStep, h1, h2] using h
      · simp only [mergeStep]
        rw [if_neg h1, if_neg (by simp [h2])]
        exact lookup_append_of_some h

theorem mergeFold_mem_pending :
    ∀ (from_ : BDoc) (acc : BDoc × List BDoc) (d : BDoc),
      d ∈ acc.2 → d ∈ (from_.foldl mergeStep acc).2 := by
  intro from_
  induction from_ with
  | nil => intro acc d h; exact h
  | cons kv rest ih =>
    intro acc d h
    rw [List.foldl_cons]
    apply ih
    obtain ⟨k1, v1⟩ := kv
    by_cases h1 : k1 = "$and"
    · simp [mergeStep, h1, List.mem_append, h]
    · by_cases h2 : BDoc.hasKey acc.1 k1
      · simp [mergeStep, h1, h2, List.mem_append, h]
      · simp [mergeStep, h1, h2, h]

theorem mergeFold_dup :
    ∀ (f1 : BDoc) (k : String) (v : BVal) (f2 : BDoc) (acc : BDoc × List BDoc),
      k ≠ "$and" → BDoc.hasKey acc.1 k = true →
      [(k, v)] ∈ ((f1 ++ (k, v) :: f2).foldl mergeStep acc).2 := by
  intro f1
  induction f1 with
  | nil =>
    intro k v f2 acc hk hhas
    rw [List.nil_append, List.foldl_cons]
    apply mergeFold_mem_pending
    simp [mergeStep, hk, hhas]
  | cons kv rest ih =>
    intro k v f2 acc hk hhas
    rw [List.cons_append, List.foldl_cons]
    apply ih _ _ _ _ hk
    obtain ⟨k1, v1⟩ := kv
    by_cases h1 : k1 = "$and"
    · simpa [mergeStep, h1] using hhas
    · by_cases h2 : BDoc.hasKey acc.1 k1
      · simpa [mergeStep, h1, h2] using hhas
      · simp only [mergeStep]
        rw [if_neg h1, if_neg (by simp [h2])]
        simp only [BDoc.hasKey] at hhas ⊢
        rcases ho : BDoc.lookup acc.1 k with _ | w
        · rw [ho] at hhas; simp at hhas
        · rw [lookup_append_of_some ho]; rfl

theorem mergeFold_and :
    ∀ (f1 : BDoc) (l : List BDoc) (f2 : BDoc) (acc : BDoc × List BDoc) (d : BDoc),
      d ∈ l → d ∈ ((f1 ++ ("$and", BVal.docs l) :: f2).foldl mergeStep acc).2 := by
  intro f1
  induction f1 with
  | nil =>
    intro l f2 acc d hd
    rw [List.nil_append, List.foldl_cons]
    apply mergeFold_mem_pending
    simp [mergeStep, getAndBranches, List.mem_append, hd]
  | cons kv rest ih =>
    intro l f2 acc d hd
    rw [List.cons_append, List.foldl_cons]
    exact ih l f2 _ d hd

theorem mergeFold_fresh :
    ∀ (f1 : BDoc) (k : String) (v : BVal) (f2 : BDoc) (acc : BDoc × List BDoc),
      k ≠ "$and" → BDoc.hasKey acc.1 k = false → (∀ kv ∈ f1, kv.1 ≠ k) →
      BDoc.lookup (((f1 ++ (k, v) :: f2).foldl mergeStep acc).1) k = some v := by
  intro f1
  induction f1 with
  | nil =>
    intro k v f2 acc hk hhas _
    rw [List.nil_append, List.foldl_cons]
    apply mergeFold_lookup_some
    have hnone : BDoc.lookup acc.1 k = none := by
      simp only [BDoc.hasKey] at hhas
      rcases ho : BDoc.lookup acc.1 k with _ | w
      · rfl
      · rw [ho] at hhas; simp at hhas
    simp only [mergeStep]
    rw [if_neg hk, if_neg (by simp [hhas])]
    rw [lookup_append_of_none hnone]
    simp [BDoc.lookup]
  | cons kv rest ih =>
    intro k v f2 acc hk hhas hne
    rw [List.cons_append, List.foldl_cons]
    apply ih _ _ _ _ hk
    · obtain ⟨k1, v1⟩ := kv
      have hk1 : k1 ≠ k := hne (k1, v1) (List.mem_cons_self _ _)
      by_cases h1 : k1 = "$and"
      · simpa [mergeStep, h1] using hhas
      · by_cases h2 : BDoc.hasKey acc.1 k1
        · simpa [mergeStep, h1, h2] using hhas
        · simp only [mergeStep]
          rw [if_neg h1, if_neg (by simp [h2])]
          simp only [BDoc.hasKey]
          have hnone : BDoc.lookup acc.1 k = none := by
            simp only [BDoc.hasKey] at hhas
            rcases ho : BDoc.lookup acc.1 k with _ | w
            · rfl
            · rw [ho] at hhas; simp at hhas
          rw [lookup_append_of_none hnone]
          simp [BDoc.lookup, hk1]
    · intro kv2 hm
      exact hne kv2 (List.mem_cons_of_mem _ hm)

end FhirSearch

namespace FhirSearch

theorem ciToken_not_doc (m : Config) (x : String) : ∀ d, ciToken m x ≠ .doc d := by
  intro d
  unfold ciToken
  split <;> simp

theorem gender_male_single :
    tokenSingle ⟨true, true, false, false⟩
        ⟨⟨"gender", [⟨"gender", "code"⟩], Pfx.eq, "", []⟩, "", "male", true⟩
        ⟨"gender", "code"⟩
      = .ok [("gender", BVal.regex "^male$" "i")] := by
  rw [show tokenSingle ⟨true, true, false, false⟩
      ⟨⟨"gender", [⟨"gender", "code"⟩], Pfx.eq, "", []⟩, "", "male", true⟩ ⟨"gender", "code"⟩
    = .ok (buildBSON "gender" (ciToken ⟨true, true, false, false⟩ "male")) from rfl]
  rw [buildBSON_of_scalar _ _ (ciToken_not_doc _ "male")]
  rw [show convertSearchPathToMongoField "gender" = "gender" from by decide]
  rw [show ciToken ⟨true, true, false, false⟩ "male"
    = BVal.regex ("^" ++ quoteMeta "male" ++ "$") "i" from rfl]
  rw [show ("^" ++ quoteMeta "male" ++ "$" : String) = "^male$" from by decide]

theorem gender_female_single :
    tokenSingle ⟨true, true, false, false⟩
        ⟨⟨"gender", [⟨"gender", "code"⟩], Pfx.eq, "", []⟩, "", "female", true⟩
        ⟨"gender", "code"⟩
      = .ok [("gender", BVal.regex "^female$" "i")] := by
  rw [show tokenSingle ⟨true, true, false, false⟩
      ⟨⟨"gender", [⟨"gender", "code"⟩], Pfx.eq, "", []⟩, "", "female", true⟩ ⟨"gender", "code"⟩
    = .ok (buildBSON "gender" (ciToken ⟨true, true, false, false⟩ "female")) from rfl]
  rw [buildBSON_of_scalar _ _ (ciToken_not_doc _ "female")]
  rw [show convertSearchPathToMongoField "gender" = "gender" from by decide]
  rw [show ciToken ⟨true, true, false, false⟩ "female"
    = BVal.regex ("^" ++ quoteMeta "female" ++ "$") "i" from rfl]
  rw [show ("^" ++ quoteMeta "female" ++ "$" : String) = "^female$" from by decide]

theorem gender_male_obj :
    createParamObject ⟨true, true, false, false⟩
        (.token ⟨⟨"gender", [⟨"gender", "code"⟩], Pfx.eq, "", []⟩, "", "male", true⟩)
      = .ok [("gender", BVal.regex "^male$" "i")] := by
  show orPathsE (tokenSingle ⟨true, true, false, false⟩
      ⟨⟨"gender", [⟨"gender", "code"⟩], Pfx.eq, "", []⟩, "", "male", true⟩)
      [⟨"gender", "code"⟩] = _
  have hc : collectOrResultsE (tokenSingle ⟨true, true, false, false⟩
      ⟨⟨"gender", [⟨"gender", "code"⟩], Pfx.eq, "", []⟩, "", "male", true⟩)
      [⟨"gender", "code"⟩] = .ok [[("gender", BVal.regex "^male$" "i")]] := by
    rw [collectOrResultsE, gender_male_single]
    rfl
  rw [orPathsE, hc]
  rfl

theorem gender_female_obj :
    createParamObject ⟨true, true, false, false⟩
        (.token ⟨⟨"gender", [⟨"gender", "code"⟩], Pfx.eq, "", []⟩, "", "female", true⟩)
      = .ok [("gender", BVal.regex "^female$" "i")] := by
  show orPathsE (tokenSingle ⟨true, true, false, false⟩
      ⟨⟨"gender", [⟨"gender", "code"⟩], Pfx.eq, "", []⟩, "", "female", true⟩)
      [⟨"gender", "code"⟩] = _
  have hc : collectOrResultsE (tokenSingle ⟨true, true, false, false⟩
      ⟨⟨"gender", [⟨"gender", "code"⟩], Pfx.eq, "", []⟩, "", "female", true⟩)
      [⟨"gender", "code"⟩] = .ok [[("gender", BVal.regex "^female$" "i")]] := by
    rw [collectOrResultsE, gender_female_single]
    rfl
  rw [orPathsE, hc]
  rfl

/-- C2 (confirmed): merging the per-parameter predicates never silently
overwrites — an existing binding survives; a second binding for an
existing key is promoted into the top-level `$and` conjunction list;
incoming `$and` branches are appended to the same list; fresh keys are
inserted directly — and two `gender` parameters (`male` and `female`)
produce a conjunction of both constraints (binding one and putting the
other under `$and`), with the merged document matching exactly when
both constraints match. -/
theorem merge_never_overwrites :
    (∀ (into from_ : BDoc) (k : String) (w : BVal), k ≠ "$and" →
      BDoc.lookup into k = some w → BDoc.lookup (merge into from_) k = some w) ∧
      (∀ (into f1 f2 : BDoc) (k : String) (v w : BVal), k ≠ "$and" →
        BDoc.lookup into k = some w →
        ∃ branches, BDoc.lookup (merge into (f1 ++ (k, v) :: f2)) "$and"
          = some (.docs branches) ∧ [(k, v)] ∈ branches) ∧
      (∀ (into f1 f2 : BDoc) (l : List BDoc) (d : BDoc), d ∈ l →
        ∃ branches, BDoc.lookup (merge into (f1 ++ ("$and", BVal.docs l) :: f2)) "$and"
          = some (.docs branches) ∧ d ∈ branches) ∧
      (∀ (into f1 f2 : BDoc) (k : String) (v : BVal), k ≠ "$and" →
        BDoc.hasKey into k = false → (∀ kv ∈ f1, kv.1 ≠ k) →
        BDoc.lookup (merge into (f1 ++ (k, v) :: f2)) k = some v) ∧
      (createQueryObjectFromParams ⟨true, true, false, false⟩
          [.token ⟨⟨"gender", [⟨"gender", "code"⟩], Pfx.eq, "", []⟩, "", "male", true⟩,
           .token ⟨⟨"gender", [⟨"gender", "code"⟩], Pfx.eq, "", []⟩, "", "female", true⟩]
        = .ok [("gender", BVal.regex "^male$" "i"),
               ("$and", BVal.docs [[("gender", BVal.regex "^female$" "i")]])]) ∧
      (∀ (δ : Type) (atom : String → BVal → δ → Bool) (d : δ),
        evalDoc atom [("gender", BVal.regex "^male$" "i"),
            ("$and", BVal.docs [[("gender", BVal.regex "^female$" "i")]])] d
          = (atom "gender" (BVal.regex "^male$" "i") d
              && atom "gender" (BVal.regex "^female$" "i") d)) := by
  refine ⟨?_, ?_, ?_, ?_, ?_, ?_⟩
  · intro into from_ k w hk h
    simp only [merge]
    have hres := mergeFold_lookup_some from_ (into, mergeAnd0 into) k w h
    split
    · exact hres
    · rw [setKey_lookup_ne _ _ (Ne.symm hk)]
      exact hres
  · intro into f1 f2 k v w hk h
    simp only [merge]
    have hhas : BDoc.hasKey into k = true := by simp [BDoc.hasKey, h]
    have hmem := mergeFold_dup f1 k v f2 (into, mergeAnd0 into) hk hhas
    split
    · rename_i hempty
      rw [List.isEmpty_iff] at hempty
      rw [hempty] at hmem
      exact absurd hmem (List.not_mem_nil _)
    · exact ⟨_, setKey_lookup_self _ _ _, hmem⟩
  · intro into f1 f2 l d hd
    simp only [merge]
    have hmem := mergeFold_and f1 l f2 (into, mergeAnd0 into) d hd
    split
    · rename_i hempty
      rw [List.isEmpty_iff] at hempty
      rw [hempty] at hmem
      exact absurd hmem (List.not_mem_nil _)
    · exact ⟨_, setKey_lookup_self _ _ _, hmem⟩
  · intro into f1 f2 k v hk hhas hne
    simp only [merge]
    have hres := mergeFold_fresh f1 k v f2 (into, mergeAnd0 into) hk hhas hne
    split
    · exact hres
    · rw [setKey_lookup_ne _ _ (Ne.symm hk)]
      exact hres
  · rw [show createQueryObjectFromParams ⟨true, true, false, false⟩
        [.token ⟨⟨"gender", [⟨"gender", "code"⟩], Pfx.eq, "", []⟩, "", "male", true⟩,
         .token ⟨⟨"gender", [⟨"gender", "code"⟩], Pfx.eq, "", []⟩, "", "female", true⟩]
      = (createParamObjects ⟨true, true, false, false⟩
          [.token ⟨⟨"gender", [⟨"gender", "code"⟩], Pfx.eq, "", []⟩, "", "male", true⟩,
           .token ⟨⟨"gender", [⟨"gender", "code"⟩], Pfx.eq, "", []⟩, "", "female", true⟩]).map
          (fun objs => objs.foldl merge []) from rfl]
    have h4 : createParamObjects ⟨true, true, false, false⟩
        [.token ⟨⟨"gender", [⟨"gender", "code"⟩], Pfx.eq, "", []⟩, "", "male", true⟩,
         .token ⟨⟨"gender", [⟨"gender", "code"⟩], Pfx.eq, "", []⟩, "", "female", true⟩]
      = .ok [[("gender", BVal.regex "^male$" "i")], [("gender", BVal.regex "^female$" "i")]] := by
      simp [createParamObjects, List.mapM, List.mapM.loop, gender_male_obj, gender_female_obj,
        except_bind_ok]
    rw [h4]
    rfl
  · intro δ atom d
    simp [evalDoc, evalEntry, evalAndList]

theorem merge_never_overwrites_witness :
    (("a" : String) ≠ "$and" ∧ BDoc.lookup [("a", BVal.num 1)] "a" = some (BVal.num 1)) ∧
      BDoc.lookup (merge [("a", BVal.num 1)] [("a", BVal.num 2)]) "a" = some (BVal.num 1) ∧
      (∃ branches,
        BDoc.lookup (merge [("a", BVal.num 1)] ([] ++ ("a", BVal.num 2) :: [])) "$and"
          = some (.docs branches) ∧ [(("a" : String), BVal.num 2)] ∈ branches) ∧
      BDoc.lookup (merge [("a", BVal.num 1)] ([] ++ ("b", BVal.num 3) :: [])) "b"
        = some (BVal.num 3) :=
  ⟨⟨by decide, rfl⟩,
   merge_never_overwrites.1 [("a", BVal.num 1)] [("a", BVal.num 2)] "a" (BVal.num 1)
     (by decide) rfl,
   merge_never_overwrites.2.1 [("a", BVal.num 1)] [] [] "a" (BVal.num 2) (BVal.num 1)
     (by decide) rfl,
   merge_never_overwrites.2.2.2.1 [("a", BVal.num 1)] [] [] "b" (BVal.num 3)
     (by decide) rfl (by intro kv h; exact absurd h (List.not_mem_nil _))⟩

end FhirSearch

/-! ## C1 and C10: the executor's count-cache and `_summary=count` handling -/

namespace FhirSearch

theorem except_pure {ε α : Type} (a : α) : (pure a : Except ε α) = Except.ok a := rfl

theorem findModel_noCount {α : Type} (env : MongoEnv α) (q : SearchQuery)
    (hsum : q.summary ≠ "count") (hferr : env.findError = none) :
    findModel env q false = .ok (some env.dbDocs, 0) := by
  simp [findModel, hsum, hferr, except_bind_ok, except_pure]

theorem aggregateModel_noCount {α : Type} (env : MongoEnv α) (q : SearchQuery)
    (hsum : q.summary ≠ "count") (hferr : env.findError = none) :
    aggregateModel env q false = .ok (some env.dbDocs, 0) := by
  simp [aggregateModel, hsum, hferr, except_bind_ok, except_pure]

theorem findModel_count {α : Type} (env : MongoEnv α) (q : SearchQuery)
    (hcerr : env.countError = none) (hsum : q.summary ≠ "count") (hferr : env.findError = none) :
    findModel env q true = .ok (some env.dbDocs, env.countDocuments) := by
  simp [findModel, hsum, hcerr, hferr, except_bind_ok, except_pure]

theorem aggregateModel_count {α : Type} (env : MongoEnv α) (q : SearchQuery)
    (hcerr : env.countError = none) (hsum : q.summary ≠ "count") (hferr : env.findError = none) :
    aggregateModel env q true =
      .ok (some env.dbDocs,
        if q.pipelineLen == 1 then env.countDocuments else env.aggGroupTotal.getD 0) := by
  rcases hp : q.pipelineLen == 1 <;>
    simp [aggregateModel, hsum, hcerr, hferr, hp, except_bind_ok, except_pure]

theorem findModel_summary {α : Type} (env : MongoEnv α) (q : SearchQuery) (doCount : Bool)
    (hsum : q.summary = "count") (hcerr : env.countError = none) :
    findModel env q doCount = .ok (none, env.countDocuments) := by
  cases doCount <;> simp [findModel, hsum, hcerr, except_bind_ok, except_pure]

theorem aggregateModel_summary {α : Type} (env : MongoEnv α) (q : SearchQuery) (doCount : Bool)
    (hsum : q.summary = "count") (hcerr : env.countError = none) :
    aggregateModel env q doCount =
      .ok (none, if q.pipelineLen == 1 then env.countDocuments
                 else env.aggGroupTotal.getD 0) := by
  cases doCount <;> rcases hp : q.pipelineLen == 1 <;>
    simp [aggregateModel, hsum, hcerr, hp, except_bind_ok, except_pure]

/-- On a `_summary=count` search the finishing step returns the
computed total with no resources and performs no cache insertion. -/
theorem searchFinish_cacheInsert_none {α : Type} (m : Config) (q : SearchQuery)
    (queryHash : String) (doCount : Bool) (total0 : Nat)
    (run : Except String (Option (List α) × Nat)) (hsum : q.summary = "count") :
    (searchFinish m q queryHash doCount total0 run).cacheInsert = none := by
  rcases run with e | ⟨cursor, computedTotal⟩ <;> simp [searchFinish, hsum]

/-- C1 (confirmed): with a read-only searcher and counting enabled, the
executor keys the `countcache` by the fingerprint of
`resource + "?" + rawQueryString`; on a hit it adopts the cached total
and runs no count query; a cached total of 0 returns immediately with
no resources and no error; on a miss (with counting still needed) the
freshly computed total is inserted into the cache under the same key
after the results are collected; and a failure of that insertion is
invisible to the caller (the executor never reads it). -/
theorem search_count_cache_spec {α : Type} (m : Config) (env : MongoEnv α) (q : SearchQuery)
    (hro : m.readonly = true) (hct : m.countTotalResults = true) :
    (∀ c : Nat, c ≠ 0 →
      env.countcacheFind (env.md5hex (q.resource ++ "?" ++ q.rawQuery)) = some c →
      q.summary ≠ "count" → env.countError = none → env.findError = none →
      SearchModel m env q = ⟨env.dbDocs, c, none, none, false⟩) ∧
      (env.countcacheFind (env.md5hex (q.resource ++ "?" ++ q.rawQuery)) = some 0 →
        SearchModel m env q = ⟨[], 0, none, none, false⟩) ∧
      (env.countcacheFind (env.md5hex (q.resource ++ "?" ++ q.rawQuery)) = none →
        q.summary ≠ "count" → env.countError = none → env.findError = none →
        SearchModel m env q =
          ⟨env.dbDocs,
           (if q.usesPipeline then (if q.pipelineLen == 1 then env.countDocuments
                                    else env.aggGroupTotal.getD 0)
            else env.countDocuments),
           none,
           some (env.md5hex (q.resource ++ "?" ++ q.rawQuery),
             (if q.usesPipeline then (if q.pipelineLen == 1 then env.countDocuments
                                      else env.aggGroupTotal.getD 0)
              else env.countDocuments)),
           true⟩) ∧
      (∀ b : Bool, SearchModel m { env with countcacheInsertFails := b } q
        = SearchModel m env q) := by
  refine ⟨?_, ?_, ?_, ?_⟩
  · intro c hc hcache hsum hcerr hferr
    have hc0 : (c == 0) = false := by simp [hc]
    cases hup : q.usesPipeline <;>
      simp [SearchModel, searchFinish, hro, hct, hcache, hc0, hsum, hup,
        findModel_noCount env q hsum hferr, aggregateModel_noCount env q hsum hferr]
  · intro hcache
    simp [SearchModel, hro, hct, hcache]
  · intro hcache hsum hcerr hferr
    cases hup : q.usesPipeline <;>
      simp [SearchModel, searchFinish, hro, hct, hcache, hsum, hup,
        findModel_count env q hcerr hsum hferr,
        aggregateModel_count env q hcerr hsum hferr]
  · intro b
    cases env
    rfl

theorem search_count_cache_spec_witness :
    ((3 : Nat) ≠ 0) ∧
      SearchModel (α := Nat) ⟨true, true, false, true⟩
          ⟨fun _ => "h", fun _ => some 3, 7, none, [42], false, none, none⟩
          ⟨"Patient", "gender=male", "", false, 1⟩
        = ⟨[42], 3, none, none, false⟩ ∧
      SearchModel (α := Nat) ⟨true, true, false, true⟩
          ⟨fun _ => "h", fun _ => some 0, 7, none, [42], false, none, none⟩
          ⟨"Patient", "gender=male", "", false, 1⟩
        = ⟨[], 0, none, none, false⟩ ∧
      SearchModel (α := Nat) ⟨true, true, false, true⟩
          ⟨fun _ => "h", fun _ => none, 7, none, [42], false, none, none⟩
          ⟨"Patient", "gender=male", "", false, 1⟩
        = ⟨[42], 7, none, some ("h", 7), true⟩ :=
  ⟨by decide,
   (search_count_cache_spec ⟨true, true, false, true⟩
      ⟨fun _ => "h", fun _ => some 3, 7, none, [42], false, none, none⟩
      ⟨"Patient", "gender=male", "", false, 1⟩ rfl rfl).1 3 (by decide) rfl
     (by decide) rfl rfl,
   (search_count_cache_spec ⟨true, true, false, true⟩
      ⟨fun _ => "h", fun _ => some 0, 7, none, [42], false, none, none⟩
      ⟨"Patient", "gender=male", "", false, 1⟩ rfl rfl).2.1 rfl,
   (search_count_cache_spec ⟨true, true, false, true⟩
      ⟨fun _ => "h", fun _ => none, 7, none, [42], false, none, none⟩
      ⟨"Patient", "gender=male", "", false, 1⟩ rfl rfl).2.2.1 rfl (by decide) rfl rfl⟩

/-- C10 (corrected): for a `_summary=count` query that does not hit a
cached zero total, the total is computed — by count-documents in find
mode, by count-documents on the match for a single-stage pipeline, and
by the `$group` count branch for longer pipelines — even when
`countTotalResults` is false, and `Search` returns
`(no resources, computedTotal, nil)` before the count-cache insertion
step; further, under any configuration a `_summary=count` search never
writes a `countcache` entry.  (On a read-only cached-zero hit the count
query is skipped and the cached 0 returned instead: see
`summary_count_cached_zero_cex`.) -/
theorem summary_count_spec {α : Type} (m : Config) (env : MongoEnv α) (q : SearchQuery) :
    (q.summary = "count" → env.countError = none →
      ¬(m.readonly = true ∧ m.countTotalResults = true ∧
        env.countcacheFind (env.md5hex (q.resource ++ "?" ++ q.rawQuery)) = some 0) →
      (q.usesPipeline = false →
        SearchModel m env q = ⟨[], env.countDocuments, none, none, true⟩) ∧
      (q.usesPipeline = true → q.pipelineLen = 1 →
        SearchModel m env q = ⟨[], env.countDocuments, none, none, true⟩) ∧
      (q.usesPipeline = true → q.pipelineLen ≠ 1 →
        SearchModel m env q = ⟨[], env.aggGroupTotal.getD 0, none, none, true⟩)) ∧
      (q.summary = "count" → (SearchModel m env q).cacheInsert = none) := by
  constructor
  · intro hsum hcerr hno
    have hf := fun doCount => findModel_summary env q doCount hsum hcerr
    have ha := fun doCount => aggregateModel_summary env q doCount hsum hcerr
    have key : SearchModel m env q =
        ⟨[], (if q.usesPipeline then (if q.pipelineLen == 1 then env.countDocuments
                                      else env.aggGroupTotal.getD 0)
              else env.countDocuments), none, none, true⟩ := by
      rcases hup : q.usesPipeline with _ | _ <;>
        rcases hro : m.readonly with _ | _ <;>
          rcases hct : m.countTotalResults with _ | _
      · simp [SearchModel, searchFinish, hro, hct, hup, hsum, hf, ha]
      · simp [SearchModel, searchFinish, hro, hct, hup, hsum, hf, ha]
      · simp [SearchModel, searchFinish, hro, hct, hup, hsum, hf, ha]
      · rcases hcf : env.countcacheFind (env.md5hex (q.resource ++ "?" ++ q.rawQuery))
          with _ | c
        · simp [SearchModel, searchFinish, hro, hct, hcf, hup, hsum, hf, ha]
        · have hc : c ≠ 0 := fun h0 => hno ⟨hro, hct, h0 ▸ hcf⟩
          have hc0 : (c == 0) = false := by simp [hc]
          simp [SearchModel, searchFinish, hro, hct, hcf, hc0, hup, hsum, hf, ha]
      · simp [SearchModel, searchFinish, hro, hct, hup, hsum, hf, ha]
      · simp [SearchModel, searchFinish, hro, hct, hup, hsum, hf, ha]
      · simp [SearchModel, searchFinish, hro, hct, hup, hsum, hf, ha]
      · rcases hcf : env.countcacheFind (env.md5hex (q.resource ++ "?" ++ q.rawQuery))
          with _ | c
        · simp [SearchModel, searchFinish, hro, hct, hcf, hup, hsum, hf, ha]
        · have hc : c ≠ 0 := fun h0 => hno ⟨hro, hct, h0 ▸ hcf⟩
          have hc0 : (c == 0) = false := by simp [hc]
          simp [SearchModel, searchFinish, hro, hct, hcf, hc0, hup, hsum, hf, ha]
    refine ⟨fun hup => ?_, fun hup hlen => ?_, fun hup hlen => ?_⟩
    · rw [key, hup]
      simp
    · rw [key, hup, hlen]
      simp
    · rw [key, hup]
      have : (q.pipelineLen == 1) = false := by simp [hlen]
      simp [this]
  · intro hsum
    simp only [SearchModel]
    split
    all_goals split
    all_goals
      first
        | rfl
        | exact searchFinish_cacheInsert_none m q _ _ _ _ hsum

/-- C10's counterexample: a read-only, counting-enabled searcher that
hits a cached total of 0 answers a `_summary=count` query without
running any count query, returning the cached 0 rather than the
computed total (here `CountDocuments` would return 5). -/
theorem summary_count_cached_zero_cex :
    (SearchModel (α := Nat) ⟨true, true, false, true⟩
        ⟨fun _ => "h", fun _ => some 0, 5, none, [], false, none, none⟩
        ⟨"Patient", "name=a", "count", false, 1⟩).countQueryRun = false ∧
      (SearchModel (α := Nat) ⟨true, true, false, true⟩
          ⟨fun _ => "h", fun _ => some 0, 5, none, [], false, none, none⟩
          ⟨"Patient", "name=a", "count", false, 1⟩).total = 0 ∧
      (MongoEnv.countDocuments (α := Nat)
          ⟨fun _ => "h", fun _ => some 0, 5, none, [], false, none, none⟩) = 5 ∧
      (SearchModel (α := Nat) ⟨true, true, false, true⟩
          ⟨fun _ => "h", fun _ => some 0, 5, none, [], false, none, none⟩
          ⟨"Patient", "name=a", "count", false, 1⟩).total ≠
        MongoEnv.countDocuments (α := Nat)
          ⟨fun _ => "h", fun _ => some 0, 5, none, [], false, none, none⟩ :=
  ⟨rfl, rfl, rfl, by decide⟩

theorem summary_count_spec_witness :
    (("count" : String) = "count") ∧
      SearchModel (α := Nat) ⟨false, false, false, false⟩
          ⟨fun _ => "h", fun _ => none, 7, none, [42], false, none, none⟩
          ⟨"Patient", "name=a", "count", false, 1⟩
        = ⟨[], 7, none, none, true⟩ :=
  ⟨rfl,
   ((summary_count_spec ⟨false, false, false, false⟩
        ⟨fun _ => "h", fun _ => none, 7, none, [42], false, none, none⟩
        ⟨"Patient", "name=a", "count", false, 1⟩).1 rfl rfl
      (by rintro ⟨h1, -, -⟩; exact absurd h1 (by decide))).1 rfl⟩

end FhirSearch
